import Mathlib

/-!
Verification development for the `inverter` repository: field-by-field
converters from Python dataclasses to Avro schemas (`dc2avsc`), colander form
schemas (`dc2colander` and its JSON variant `dc2colanderjson`), JSON-Schema-like
`jsl` documents (`dc2jsl`), Elasticsearch index mappings (`dc2esmapping`) and
SQLAlchemy table definitions (`dc2pgsqla`).

The embedding models Python values and dataclass field descriptors as Lean
inductive types, and each converter as an executable Lean function translated
from the corresponding source file.  Fallible Python code (statements that can
raise) is modelled with `Except`.
-/

/-- Python literal values, as they occur in field defaults and schema-node
default values.  `pnone` is Python `None`; the empty containers are the
defaults `{}`, `[]`, `set()` that `colander_params` manufactures for
container-typed fields. -/
inductive PyLit where
  | pnone : PyLit
  | pstr : String → PyLit
  | pint : Int → PyLit
  | pbool : Bool → PyLit
  | pemptyDict : PyLit
  | pemptyList : PyLit
  | pemptySet : PyLit
deriving DecidableEq, Repr

/-- Kinds of `deform` widgets that the conversion code manufactures or that a
caller supplies via metadata.  `customW` stands for any other caller-supplied
widget class. -/
inductive WKind where
  | hiddenW : WKind
  | textInputW : WKind
  | textAreaW : WKind
  | checkboxW : WKind
  | dateInputW : WKind
  | dateTimeInputW : WKind
  | customW : String → WKind
deriving DecidableEq, Repr

/-- A `deform` widget instance: its class together with the two mutable
attributes the conversion code reads or writes (`hidden`, `readonly`). -/
structure Widget where
  kind : WKind
  hidden : Bool := false
  readonly : Bool := false
deriving DecidableEq, Repr

/-- Tags for the `colander.SchemaType` instance stored in a produced schema
node (`colander.Date()`, `colander.DateTime(...)`, the repository's own
`String`/`Boolean`/`Mapping` subclasses, etc.).  `cFactory` is the result of a
caller-supplied `colander.field_factory`; `cMappingSchema` marks the embedded
sub-schema instance produced for a nested dataclass field. -/
inductive CType where
  | cDate : CType
  | cDateTime : CType
  | cString : CType
  | cInt : CType
  | cFloat : CType
  | cBool : CType
  | cMapping : CType
  | cList : CType
  | cFileData : CType
  | cSet : CType
  | cFactory : String → CType
  | cMappingSchema : CType
deriving DecidableEq, Repr

/-- Values occurring in an Elasticsearch mapping fragment: strings, booleans,
and the fixed `{"raw": {"type": "keyword"}}` sub-field object emitted for
full-text string fields. -/
inductive EsVal where
  | s : String → EsVal
  | b : Bool → EsVal
  | rawKeyword : EsVal
deriving DecidableEq, Repr

/-- The metadata mapping attached to a dataclass field, restricted to the keys
the converters actually read.  `none` models the key being absent.
`validators`/`preparers` record whether the corresponding key is present with a
truthy (non-empty) list; the callables themselves are modelled separately.
`deformWidgetFactory` and `colanderFieldFactory` hold the value the respective
factory callable returns for the conversion request. -/
structure Metadata where
  required : Option Bool := none
  format : Option String := none
  editable : Option Bool := none
  readonly : Option Bool := none
  title : Option String := none
  description : Option String := none
  validators : Option Bool := none
  preparers : Option Bool := none
  deformWidget : Option Widget := none
  deformWidgetFactory : Option Widget := none
  colanderFieldFactory : Option CType := none
  length : Option Int := none
  primary_key : Option Bool := none
  index : Option Bool := none
  autoincrement : Option Bool := none
  unique : Option Bool := none
  searchable : Option Bool := none
  esMappingOptions : Option (List (String × EsVal)) := none
deriving DecidableEq, Repr

/-- Python `dict.update`: keys present in the override replace the base value,
absent keys keep it.  Used for the per-field metadata overrides that
`dc2colander` and `dc2esmapping` merge into a field's metadata. -/
def Metadata.update (base ov : Metadata) : Metadata where
  required := ov.required <|> base.required
  format := ov.format <|> base.format
  editable := ov.editable <|> base.editable
  readonly := ov.readonly <|> base.readonly
  title := ov.title <|> base.title
  description := ov.description <|> base.description
  validators := ov.validators <|> base.validators
  preparers := ov.preparers <|> base.preparers
  deformWidget := ov.deformWidget <|> base.deformWidget
  deformWidgetFactory := ov.deformWidgetFactory <|> base.deformWidgetFactory
  colanderFieldFactory := ov.colanderFieldFactory <|> base.colanderFieldFactory
  length := ov.length <|> base.length
  primary_key := ov.primary_key <|> base.primary_key
  index := ov.index <|> base.index
  autoincrement := ov.autoincrement <|> base.autoincrement
  unique := ov.unique <|> base.unique
  searchable := ov.searchable <|> base.searchable
  esMappingOptions := ov.esMappingOptions <|> base.esMappingOptions

mutual
/-- The declared type of a dataclass field: the supported primitive and
container categories, a nested dataclass (`tRecord`, carrying the nested
class's name and ordered field list), or any other Python type
(`tUnknown`, carrying the type's name). -/
inductive FieldType where
  | tStr : FieldType
  | tInt : FieldType
  | tFloat : FieldType
  | tBool : FieldType
  | tDate : FieldType
  | tDatetime : FieldType
  | tDict : FieldType
  | tList : FieldType
  | tSet : FieldType
  | tFile : FieldType
  | tRecord : String → FieldList → FieldType
  | tUnknown : String → FieldType

/-- The ordered field list of a dataclass (`__dataclass_fields__` preserves
declaration order). -/
inductive FieldList where
  | nil : FieldList
  | cons : RField → FieldList → FieldList

/-- A `dataclasses.Field` descriptor: name, declared type, `default`
(`none` = `dataclasses.MISSING`), `default_factory` (`none` = `MISSING`,
`some v` = a factory producing `v`), and the metadata mapping. -/
inductive RField where
  | mk : String → FieldType → Option PyLit → Option PyLit → Metadata → RField
end

/-- `prop.name` -/
def RField.name : RField → String
  | .mk n _ _ _ _ => n

/-- `prop.type`, after the introspector's unwrapping -/
def RField.ftype : RField → FieldType
  | .mk _ t _ _ _ => t

/-- `prop.default` (`none` models `dataclasses.MISSING`) -/
def RField.fdefault : RField → Option PyLit
  | .mk _ _ d _ _ => d

/-- `prop.default_factory` (`none` models `dataclasses.MISSING`) -/
def RField.default_factory : RField → Option PyLit
  | .mk _ _ _ df _ => df

/-- `prop.metadata` -/
def RField.metadata : RField → Metadata
  | .mk _ _ _ _ m => m

/-- View a `FieldList` as an ordinary Lean list, for stating properties. -/
def FieldList.toList : FieldList → List RField
  | .nil => []
  | .cons f rest => f :: rest.toList

/-- A dataclass: its `__name__`, optional `__table_name__` (read by
`dc2pgsqla`), and its ordered fields. -/
structure DClass where
  dcname : String
  table_name : Option String := none
  fields : FieldList

/-- The `{type, required, metadata}` triple the introspector returns for a
field. -/
structure TypeInfo where
  ftype : FieldType
  required : Bool
  metadata : Metadata

/-- Modelled from the spec: the type/metadata introspector
(`inverter/common.py`, imported by every converter as `dataclass_get_type`) is
not present under `src/`.  Spec section 4.1: "given a field descriptor, return
`{type, required, metadata}`.  `required` is the logical negation of 'has a
usable default,' overridable by explicit metadata". -/
def dataclass_get_type (prop : RField) : TypeInfo where
  ftype := prop.ftype
  required :=
    match prop.metadata.required with
    | some b => b
    | none => !(prop.fdefault.isSome || prop.default_factory.isSome)
  metadata := prop.metadata

/-- Modelled from the spec: companion of `dataclass_get_type` from the absent
`inverter/common.py`; reports whether a field's declared type is itself a
dataclass (spec sections 3 and 4.2, the nested-record category). -/
def is_dataclass_field (prop : RField) : Bool :=
  match prop.ftype with
  | .tRecord _ _ => true
  | _ => false

/-- Modelled from the spec: companion of `dataclass_get_type` from the absent
`inverter/common.py`; returns the introspection triple when the field's
declared type matches the queried category, used by `dc2jsl` as
`dataclass_check_type(prop, date)` etc. -/
def dataclass_check_type (prop : RField) (t : FieldType) : Option TypeInfo :=
  let info := dataclass_get_type prop
  match info.ftype, t with
  | .tStr, .tStr => some info
  | .tInt, .tInt => some info
  | .tFloat, .tFloat => some info
  | .tBool, .tBool => some info
  | .tDate, .tDate => some info
  | .tDatetime, .tDatetime => some info
  | .tDict, .tDict => some info
  | .tList, .tList => some info
  | .tSet, .tSet => some info
  | .tFile, .tFile => some info
  | _, _ => none

/-- The exceptions raised by the converters.  `keyError` carries the field
name: Python `KeyError(prop)` carries the whole `Field` object, whose
representation names the field.  The other constructors carry the exception's
message string. -/
inductive Err where
  | keyError : String → Err
  | typeError : String → Err
  | notImplementedError : String → Err
  | attributeError : String → Err
deriving DecidableEq, Repr

/-- Whether `needle` occurs as a contiguous sub-list of `hay`. -/
def charsHasInfix : List Char → List Char → Bool
  | hay, needle =>
    if needle.isPrefixOf hay then true
    else
      match hay with
      | [] => false
      | _ :: t => charsHasInfix t needle

/-- Whether `fld` occurs as a substring of `msg` (with `fld` nonempty). -/
def strMentions (msg fld : String) : Bool :=
  fld ≠ "" && charsHasInfix msg.toList fld.toList

/-- Whether an exception identifies the field named `fld`: a
`KeyError(prop)` carries the field object itself; for message-carrying
exceptions the message must mention the field's name. -/
def Err.identifiesField : Err → String → Bool
  | .keyError f, fld => f == fld
  | .typeError m, fld => strMentions m fld
  | .notImplementedError m, fld => strMentions m fld
  | .attributeError m, fld => strMentions m fld

/-- The `for` loops of the assemblers: map each element, stopping at the
first raised exception. -/
def exceptMap {α β ε : Type} (g : α → Except ε β) : List α → Except ε (List β)
  | [] => .ok []
  | x :: xs =>
      match g x with
      | .error e => .error e
      | .ok b =>
          match exceptMap g xs with
          | .error e => .error e
          | .ok r => .ok (b :: r)

/-- How Python renders a class in an error message such as
`"Unknown Avro type for %s" % t["type"]` (apostrophes elided). -/
def FieldType.pyRepr : FieldType → String
  | .tStr => "<class str>"
  | .tInt => "<class int>"
  | .tFloat => "<class float>"
  | .tBool => "<class bool>"
  | .tDate => "<class datetime.date>"
  | .tDatetime => "<class datetime.datetime>"
  | .tDict => "<class dict>"
  | .tList => "<class list>"
  | .tSet => "<class set>"
  | .tFile => "<class deform.FileData>"
  | .tRecord n _ => "<class " ++ n ++ ">"
  | .tUnknown n => "<class " ++ n ++ ">"

/-! ## dc2avsc — src/inverter/dc2avsc.py -/

/-- A single entry of an Avro field's type list: a plain type name such as
`"string"` or `"null"`, or a `{"type": ..., "logicalType": ...}` object. -/
inductive AvType where
  | plain : String → AvType
  | logical : String → String → AvType
deriving DecidableEq, Repr

/-- One entry of the Avro schema's `"fields"` list. -/
structure AvscField where
  name : String
  types : List AvType
deriving DecidableEq, Repr

/-- The Avro schema document `dc2avsc` assembles. -/
structure AvscDoc where
  avNamespace : String
  name : String
  fields : List AvscField
deriving DecidableEq, Repr

/-- `dataclass_field_to_avsc_field(prop, schema, request, ignore_required)`.
The `schema` and `request` parameters are passed through unused by the source
and elided.  Each branch builds `field["type"] = [base]` and appends `"null"`
when the field is not required. -/
def dataclass_field_to_avsc_field (prop : RField) (ignore_required : Bool) :
    Except Err AvscField :=
  let t := dataclass_get_type prop
  let required : Bool :=
    if !ignore_required then prop.metadata.required.getD false else false
  let nullSuffix : List AvType := if !required then [.plain "null"] else []
  match t.ftype with
  | .tStr =>
      if prop.metadata.format == some "uuid" then
        .ok { name := prop.name, types := [.logical "string" "uuid"] ++ nullSuffix }
      else
        .ok { name := prop.name, types := [.plain "string"] ++ nullSuffix }
  | .tInt => .ok { name := prop.name, types := [.plain "int"] ++ nullSuffix }
  | .tFloat => .ok { name := prop.name, types := [.plain "double"] ++ nullSuffix }
  | .tBool => .ok { name := prop.name, types := [.plain "boolean"] ++ nullSuffix }
  | .tDatetime =>
      .ok { name := prop.name, types := [.logical "long" "timestamp-millis"] ++ nullSuffix }
  | .tDate =>
      .ok { name := prop.name, types := [.logical "int" "date"] ++ nullSuffix }
  | .tRecord _ _ =>
      -- The source executes `subtype = dc2avsc(prop, request=request)`,
      -- passing the Field object itself where `dc2avsc` expects a dataclass.
      -- `dc2avsc` immediately evaluates `str(schema.__name__)`, and a
      -- `dataclasses.Field` has no `__name__`, so the call raises
      -- AttributeError before producing anything.
      .error (.attributeError "Field object has no attribute __name__")
  | .tDict =>
      -- dictionary fields are encoded as string (see the FIXME in the source)
      .ok { name := prop.name, types := [.plain "string"] ++ nullSuffix }
  | other => .error (.typeError ("Unknown Avro type for " ++ other.pyRepr))

/-- `dc2avsc(schema, request=..., include_fields=..., exclude_fields=...,
namespace="inverter", ignore_required=True)`.  The source iterates every
dataclass field (`include_fields`/`exclude_fields` are accepted but never
consulted by the loop) and collects the per-field fragments. -/
def dc2avsc (schema : DClass) (avNamespace : String := "inverter")
    (ignore_required : Bool := true) : Except Err AvscDoc := do
  let fields ← exceptMap
    (fun prop => dataclass_field_to_avsc_field prop ignore_required)
    schema.fields.toList
  .ok { avNamespace := avNamespace, name := schema.dcname, fields := fields }

/-! ## dc2esmapping — src/inverter/dc2esmapping.py -/

/-- An Elasticsearch mapping fragment for one field: an ordered dictionary of
keys to values (e.g. `{"type": "keyword"}`). -/
def EsField : Type := List (String × EsVal)
deriving instance DecidableEq, Repr for EsField

/-- Python `dict.update` on an ordered dictionary: existing keys are
overwritten in place, new keys are appended in the override's order. -/
def dictUpdate (base ov : List (String × EsVal)) : List (String × EsVal) :=
  (base.map (fun kv => (kv.1, ((ov.lookup kv.1).getD kv.2)))) ++
    ov.filter (fun kv => (base.lookup kv.1).isNone)

/-- Python `dict.setdefault`: insert the key at the end only when absent. -/
def dictSetdefault (d : List (String × EsVal)) (k : String) (v : EsVal) :
    List (String × EsVal) :=
  if (d.lookup k).isSome then d else d ++ [(k, v)]

/-- `dataclass_field_to_esmapping(prop, schema, request, metadata=...)`; the
`schema` and `request` parameters are unused by the source and elided.
`metadata` is the per-field override merged over a deep copy of the field's
metadata. -/
def dataclass_field_to_esmapping (prop : RField) (metadata : Metadata := {}) :
    Except Err EsField :=
  let t := dataclass_get_type prop
  let meta := t.metadata.update metadata
  let index := meta.index
  let mapping_opts0 := meta.esMappingOptions.getD []
  let mapping_opts :=
    match index with
    | some b => dictSetdefault mapping_opts0 "index" (.b b)
    | none => mapping_opts0
  match t.ftype with
  | .tDate => .ok (dictUpdate [("type", .s "date")] mapping_opts)
  | .tDatetime => .ok (dictUpdate [("type", .s "date")] mapping_opts)
  | .tStr =>
      let mfield : List (String × EsVal) :=
        match meta.format with
        | none => [("type", .s "keyword")]
        | some fmt =>
            if fmt == "text" || fmt.startsWith "text/" then
              [("type", .s "text"), ("fields", .rawKeyword)]
            else
              [("type", .s "keyword")]
      .ok (dictUpdate mfield mapping_opts)
  | .tInt => .ok (dictUpdate [("type", .s "long")] mapping_opts)
  | .tFloat => .ok (dictUpdate [("type", .s "double")] mapping_opts)
  | .tBool => .ok (dictUpdate [("type", .s "boolean")] mapping_opts)
  | .tRecord _ _ =>
      -- The `is_dataclass_field(prop)` branch assigns
      -- `mfield = {"type": "object"}; mfield.update(mapping_opts)` but has no
      -- `return` statement, so control falls through to the
      -- `t["type"] == dict` / `list` / `set` checks.  A dataclass type equals
      -- none of them, so the function ends at `raise KeyError(prop)`.
      let _ := dictUpdate [("type", .s "object")] mapping_opts
      .error (.keyError prop.name)
  | .tDict => .ok (dictUpdate [("type", .s "object")] mapping_opts)
  | .tList => .ok (dictUpdate [("type", .s "nested")] mapping_opts)
  | .tSet => .ok (dictUpdate [("type", .s "nested")] mapping_opts)
  | _ => .error (.keyError prop.name)

/-- The document `dc2esmapping` returns:
`{"mappings": {"properties": mprops}}`. -/
structure EsMappingDoc where
  properties : List (String × EsField)
deriving DecidableEq, Repr

/-- `dc2esmapping(schema, request=..., metadata=..., include_fields=...,
exclude_fields=...)`: iterate the fields, narrowing to `include_fields` when
given and removing `exclude_fields`. -/
def dc2esmapping (schema : DClass) (metadata : Metadata := {})
    (include_fields : List String := []) (exclude_fields : List String := []) :
    Except Err EsMappingDoc := do
  let keep : RField → Bool := fun prop =>
    if include_fields.isEmpty then
      !(exclude_fields.contains prop.name)
    else
      include_fields.contains prop.name && !(exclude_fields.contains prop.name)
  let mprops ← exceptMap
    (fun prop => do pure (prop.name, ← dataclass_field_to_esmapping prop metadata))
    (schema.fields.toList.filter keep)
  .ok { properties := mprops }

/-! ## dc2jsl — src/inverter/dc2jsl.py -/

/-- The `jsl` fields the converter builds.  `oneOfF` models
`jsl.OneOfField([prop, jsl.NullField(name=prop.name)])`, the only shape of
union the source constructs.  `required` on `nullF`/`oneOfF` defaults to
`False` in jsl, captured by `JField.required` below. -/
inductive JField where
  | dtF : String → Bool → JField
  | strF : String → Bool → Option String → JField
  | intF : String → Bool → JField
  | numF : String → Bool → JField
  | boolF : String → Bool → JField
  | dictF : String → Bool → JField
  | arrF : String → Bool → JField
  | nullF : String → JField
  | oneOfF : JField → JField → JField
deriving DecidableEq, Repr

/-- `prop.name` of a jsl field. -/
def JField.name : JField → String
  | .dtF n _ => n
  | .strF n _ _ => n
  | .intF n _ => n
  | .numF n _ => n
  | .boolF n _ => n
  | .dictF n _ => n
  | .arrF n _ => n
  | .nullF n => n
  | .oneOfF a _ => a.name

/-- `prop.required` of a jsl field (`NullField` and `OneOfField` are created
without a `required` argument, so jsl's default `False` applies). -/
def JField.required : JField → Bool
  | .dtF _ r => r
  | .strF _ r _ => r
  | .intF _ r => r
  | .numF _ r => r
  | .boolF _ r => r
  | .dictF _ r => r
  | .arrF _ r => r
  | .nullF _ => false
  | .oneOfF _ _ => false

/-- `_set_nullable(prop)`: wrap a non-required field in
`jsl.OneOfField([prop, jsl.NullField(name=prop.name)])`. -/
def _set_nullable (prop : JField) : JField :=
  if !prop.required then .oneOfF prop (.nullF prop.name) else prop

/-- `dataclass_field_to_jsl_field(prop, nullable=..., mode=...)`.  The checks
run in source order over disjoint type categories; `edit`/`edit-process`
modes force `required` to `False`.  The `typing.List[...]`-parametrised branch
is not modelled: `tList` covers the bare-`list` check that precedes it. -/
def dataclass_field_to_jsl_field (prop : RField) (nullable : Bool := false)
    (mode : String := "default") : Except Err JField :=
  let update_mode : Bool := mode == "edit" || mode == "edit-process"
  let t := dataclass_get_type prop
  let req : Bool := if update_mode then false else t.required
  match t.ftype with
  | .tDate => .ok (.dtF prop.name req)
  | .tDatetime => .ok (.dtF prop.name req)
  | .tStr => .ok (.strF prop.name req none)
  | .tInt => .ok (.intF prop.name req)
  | .tFloat => .ok (.numF prop.name req)
  | .tBool => .ok (.boolF prop.name req)
  | .tDict => .ok (.dictF prop.name req)
  | .tRecord _ _ =>
      -- The source executes `subtype = dc2jsl(t["schema"], nullable=nullable)`,
      -- but `dc2jsl` has no parameter named `nullable` (its keyword-only
      -- parameters are `ignore_required`, `additional_properties`, `mode`), so
      -- the call raises TypeError before building the sub-document.
      let _ := nullable
      .error (.typeError "dc2jsl() got an unexpected keyword argument nullable")
  | .tList => .ok (.arrF prop.name req)
  | _ => .error (.keyError prop.name)

/-- The `jsl.Document` subclass `dc2jsl` assembles: its attribute dictionary
plus the `Options.additional_properties` flag. -/
structure JDoc where
  attrs : List (String × JField)
  additional_properties : Bool
deriving DecidableEq, Repr

/-- The body of the field loop of `dc2jsl`: map the field, then either wrap it
with `_set_nullable` (when `nullable`), or give a required pattern-less string
field the catch-all pattern `".+"`. -/
def dc2jslAttrEntry (nullable : Bool) (mode : String) (f : RField) :
    Except Err (String × JField) := do
  let prop ← dataclass_field_to_jsl_field f nullable mode
  if nullable then
    pure (f.name, _set_nullable prop)
  else
    if !prop.required then
      pure (f.name, prop)
    else
      match prop with
      | .strF n r none => pure (f.name, JField.strF n r (some ".+"))
      | other => pure (f.name, other)

/-- `dc2jsl(schema, ignore_required=False, additional_properties=False,
mode="default")`.  With `nullable = ignore_required` set, every mapped field
goes through `_set_nullable`; otherwise required string fields lacking a
pattern receive the catch-all pattern `".+"`. -/
def dc2jsl (schema : DClass) (ignore_required : Bool := false)
    (additional_properties : Bool := false) (mode : String := "default") :
    Except Err JDoc := do
  let attrs ← exceptMap (dc2jslAttrEntry ignore_required mode)
    schema.fields.toList
  .ok { attrs := attrs, additional_properties := additional_properties }

/-! ## dc2pgsqla — src/inverter/dc2pgsqla.py -/

/-- The SQLAlchemy column types the converter selects. -/
inductive SqlType where
  | sqlDate : SqlType
  | sqlDateTimeTz : SqlType
  | sqlText : SqlType
  | sqlUUID : SqlType
  | sqlTSVector : SqlType
  | sqlString : Int → SqlType
  | sqlInteger : SqlType
  | sqlBigInteger : SqlType
  | sqlFloat : SqlType
  | sqlNumeric : SqlType
  | sqlBoolean : SqlType
  | sqlJSON : SqlType
deriving DecidableEq, Repr

/-- A `sqlalchemy.Column` as built by `sqlalchemy_params`: name, type, the
default (when the field's `default` or `default_factory` is not `MISSING`),
and the four metadata-driven flags. -/
structure SqlaCol where
  name : String
  type_ : SqlType
  sqlDefault : Option PyLit := none
  primary_key : Bool := false
  index : Bool := false
  autoincrement : Bool := false
  unique : Bool := false
deriving DecidableEq, Repr

/-- `sqlalchemy_params(prop, typ)`: assemble the column's keyword arguments.
A present `default_factory` overwrites a present `default` (the source assigns
the same dictionary key twice). -/
def sqlalchemy_params (prop : RField) (typ : SqlType) : SqlaCol :=
  let t := dataclass_get_type prop
  let dflt :=
    match prop.default_factory with
    | some v => some v
    | none => prop.fdefault
  { name := prop.name
    type_ := typ
    sqlDefault := dflt
    primary_key := t.metadata.primary_key == some true
    index := t.metadata.index == some true
    autoincrement := t.metadata.autoincrement == some true
    unique := t.metadata.unique == some true }

/-- `dataclass_field_to_sqla_col(prop)`: per-field type dispatch with
format-driven refinement for strings, integers and floats.  A nested
dataclass raises `NotImplementedError("Sub schema is not supported")`; a
declared type outside the handled set reaches `raise KeyError(prop)`. -/
def dataclass_field_to_sqla_col (prop : RField) : Except Err SqlaCol :=
  let t := dataclass_get_type prop
  match t.ftype with
  | .tDate => .ok (sqlalchemy_params prop .sqlDate)
  | .tDatetime => .ok (sqlalchemy_params prop .sqlDateTimeTz)
  | .tStr =>
      -- `if str_format and "/" in str_format: str_format = str_format.split("/")[0]`
      let str_format : Option String :=
        (t.metadata.format).map (fun s => (s.splitOn "/").headD s)
      if str_format == some "text" then
        .ok (sqlalchemy_params prop .sqlText)
      else if str_format == some "uuid" then
        .ok (sqlalchemy_params prop .sqlUUID)
      else if str_format == some "fulltextindex" then
        .ok (sqlalchemy_params prop .sqlTSVector)
      else
        let str_len := (prop.metadata.length).getD 256
        .ok (sqlalchemy_params prop (.sqlString str_len))
  | .tInt =>
      if t.metadata.format == some "bigint" then
        .ok (sqlalchemy_params prop .sqlBigInteger)
      else
        .ok (sqlalchemy_params prop .sqlInteger)
  | .tFloat =>
      if t.metadata.format == some "numeric" then
        .ok (sqlalchemy_params prop .sqlNumeric)
      else
        .ok (sqlalchemy_params prop .sqlFloat)
  | .tBool => .ok (sqlalchemy_params prop .sqlBoolean)
  | .tRecord _ _ => .error (.notImplementedError "Sub schema is not supported")
  | .tDict => .ok (sqlalchemy_params prop .sqlJSON)
  | .tList => .ok (sqlalchemy_params prop .sqlJSON)
  | _ => .error (.keyError prop.name)

/-- Ordering of fields by name, used to model
`sorted(schema.__dataclass_fields__.items(), key=lambda x: x[0])`. -/
def fieldNameLe (a b : RField) : Prop := a.name ≤ b.name

instance : DecidableRel fieldNameLe := fun a b =>
  inferInstanceAs (Decidable (a.name ≤ b.name))

instance : IsTotal RField fieldNameLe :=
  ⟨fun a b => le_total a.name b.name⟩

instance : IsTrans RField fieldNameLe :=
  ⟨fun _ _ _ h h2 => le_trans h h2⟩

/-- The `sqlalchemy.Table` that `dc2pgsqla` assembles: resolved table name and
column list.  The PGSQL trigram `Index` objects built afterwards register on
the SQLAlchemy metadata as a side effect and do not change the table's column
sequence; they are not modelled. -/
structure SqlaTable where
  name : String
  cols : List SqlaCol
deriving DecidableEq, Repr

/-- `dc2pgsqla(schema, metadata, name=None)`: resolve the table name from the
`name` argument, `__table_name__`, or the lower-cased class name; then map the
fields sorted by field name (Python's stable `sorted`, modelled by insertion
sort) into columns. -/
def dc2pgsqla (schema : DClass) (name : Option String := none) :
    Except Err SqlaTable := do
  let tname :=
    match name with
    | some n => n
    | none =>
        match schema.table_name with
        | some tn => tn
        | none => schema.dcname.toLower
  let cols ← exceptMap dataclass_field_to_sqla_col
    (schema.fields.toList.insertionSort fieldNameLe)
  .ok { name := tname, cols := cols }

/-! ## dc2colander — src/inverter/dc2colander.py -/

/-- The `missing` parameter of a schema node: the `colander.required` sentinel,
or the computed default value. -/
inductive CMissing where
  | creq : CMissing
  | cval : PyLit → CMissing
deriving DecidableEq, Repr

/-- A produced `colander.SchemaNode` (or, for a nested dataclass field, the
embedded `colander.MappingSchema` instance, whose children sit in
`subnodes`). -/
inductive CNode where
  | mk : String → String → CType → CMissing → PyLit → Option Widget →
      Option String → Option String → Bool → Bool →
      List (String × CNode) → CNode

/-- node name -/
def CNode.name : CNode → String
  | .mk n _ _ _ _ _ _ _ _ _ _ => n

/-- node oid -/
def CNode.oid : CNode → String
  | .mk _ o _ _ _ _ _ _ _ _ _ => o

/-- the node's `colander.SchemaType` -/
def CNode.typ : CNode → CType
  | .mk _ _ t _ _ _ _ _ _ _ _ => t

/-- the node's `missing` parameter -/
def CNode.missing : CNode → CMissing
  | .mk _ _ _ m _ _ _ _ _ _ _ => m

/-- the node's `default` parameter -/
def CNode.defaultVal : CNode → PyLit
  | .mk _ _ _ _ d _ _ _ _ _ _ => d

/-- the node's widget attribute -/
def CNode.widget : CNode → Option Widget
  | .mk _ _ _ _ _ w _ _ _ _ _ => w

/-- the node's title parameter -/
def CNode.title : CNode → Option String
  | .mk _ _ _ _ _ _ t _ _ _ _ => t

/-- the node's description parameter -/
def CNode.description : CNode → Option String
  | .mk _ _ _ _ _ _ _ d _ _ _ => d

/-- whether a `ValidatorsWrapper` is attached -/
def CNode.hasValidator : CNode → Bool
  | .mk _ _ _ _ _ _ _ _ v _ _ => v

/-- whether a `PreparersWrapper` is attached -/
def CNode.hasPreparer : CNode → Bool
  | .mk _ _ _ _ _ _ _ _ _ p _ => p

/-- children of an embedded sub-schema -/
def CNode.subnodes : CNode → List (String × CNode)
  | .mk _ _ _ _ _ _ _ _ _ _ s => s

/-- assignment to the node's `widget` attribute -/
def CNode.setWidget : CNode → Option Widget → CNode
  | .mk n o t m d _ ti de v p s, w => .mk n o t m d w ti de v p s

/-- whether the node's widget exists and is marked readonly -/
def CNode.readonlyWidget (node : CNode) : Bool :=
  match node.widget with
  | some w => w.readonly
  | none => false

/-- The keyword arguments `colander_params` assembles for the
`colander.SchemaNode` constructor.  The `schema`, `request` and `mode`
arguments of the source are only threaded into the validator/preparer
wrappers, which are modelled as presence flags. -/
structure CParams where
  name : String
  oid : String
  typ : CType
  missing : CMissing
  defaultVal : PyLit
  widget : Option Widget := none
  title : Option String := none
  description : Option String := none
  hasValidator : Bool := false
  hasPreparer : Bool := false
deriving DecidableEq, Repr

/-- `colander_params(prop, oid_prefix, schema, request, mode, **kwargs)` with
`kwargs = {"typ": ...}`: derive default value, `missing`, widget, wrappers and
title/description from the field.  The widget and title/description are read
from `prop.metadata` directly (not from the merged metadata override). -/
def colander_params (prop : RField) (oidPrefix : String) (typ : CType) :
    CParams :=
  let t := dataclass_get_type prop
  let base : PyLit :=
    match t.ftype with
    | .tDict => .pemptyDict
    | .tList => .pemptyList
    | .tSet => .pemptySet
    | _ => .pnone
  let default_value : PyLit :=
    match prop.fdefault with
    | some v => if v ≠ .pnone then v else
        match prop.default_factory with
        | some w => w
        | none => base
    | none =>
        match prop.default_factory with
        | some w => w
        | none => base
  let widget : Option Widget :=
    match prop.metadata.deformWidget with
    | some w => some w
    | none => prop.metadata.deformWidgetFactory
  let title : Option String :=
    match prop.metadata.title with
    | some s => if s ≠ "" then some s else none
    | none => none
  let description : Option String :=
    match prop.metadata.description with
    | some s => if s ≠ "" then some s else none
    | none => none
  { name := prop.name
    oid := oidPrefix ++ "-" ++ prop.name
    typ := typ
    missing := if t.required then .creq else .cval default_value
    defaultVal := default_value
    widget := widget
    title := title
    description := description
    hasValidator := prop.metadata.validators.getD false
    hasPreparer := prop.metadata.preparers.getD false }

/-- `SchemaNode(**params)`. -/
def SchemaNode.ofParams (p : CParams) : CNode :=
  .mk p.name p.oid p.typ p.missing p.defaultVal p.widget p.title p.description
    p.hasValidator p.hasPreparer []

/-- The `deform.schema.default_widget_makers` lookup table (external library
data), restricted to the colander types for which the conversion's readonly
handling can consult it; types absent from the table fall back to
`TextInputWidget` in `dc2colander`. -/
def default_widget_makers : CType → Option WKind
  | .cBool => some .checkboxW
  | .cDate => some .dateInputW
  | .cDateTime => some .dateTimeInputW
  | _ => none

/-- The field names `dc2colander` appends to `readonly_fields` for the given
mode: under `edit`, fields that are non-editable or readonly by metadata;
under `edit-process`, none (those are excluded instead); otherwise exactly the
fields marked readonly by metadata. -/
def modeReadonlyFields (mode : String) (fields : FieldList) : List String :=
  if mode == "edit" then
    (fields.toList.filter (fun f =>
      !(f.metadata.editable.getD true) || f.metadata.readonly.getD false)).map RField.name
  else if mode == "edit-process" then
    []
  else
    (fields.toList.filter (fun f => f.metadata.readonly.getD false)).map RField.name

/-- The field names `dc2colander` appends to `exclude_fields` for the given
mode: under `edit-process`, fields that are non-editable or readonly by
metadata. -/
def modeExcludeFields (mode : String) (fields : FieldList) : List String :=
  if mode == "edit-process" then
    (fields.toList.filter (fun f =>
      !(f.metadata.editable.getD true) || f.metadata.readonly.getD false)).map RField.name
  else []

/-- The post-construction pass of `dc2colander` over one `attrs` entry:
hidden-field widget adjustment, readonly-field widget adjustment (falling back
to `default_widget_makers` or `TextInputWidget` when no widget exists), and
the text-area widget for string fields carrying a `"text"` format hint. -/
def dc2colanderPostNode (fieldsL : List RField) (hidden readonly : List String)
    (kv : String × CNode) : String × CNode :=
  let attr := kv.1
  let node := kv.2
  match fieldsL.find? (fun f => f.name == attr) with
  | none => kv
  | some dcprop =>
      let t := dataclass_get_type dcprop
      let node :=
        if hidden.contains attr then
          match node.widget with
          | none => node.setWidget (some { kind := .hiddenW, hidden := true })
          | some w => node.setWidget (some { w with hidden := true })
        else node
      let node :=
        if readonly.contains attr then
          let node1 :=
            match node.widget with
            | none =>
                node.setWidget
                  (some { kind := (default_widget_makers node.typ).getD .textInputW })
            | some _ => node
          node1.setWidget (node1.widget.map (fun w => { w with readonly := true }))
        else node
      let node :=
        match t.ftype with
        | .tStr =>
            if dcprop.metadata.format == some "text" then
              match node.widget with
              | none => node.setWidget (some { kind := .textAreaW })
              | some _ => node
            else node
        | _ => node
      (attr, node)

/-- The post-construction pass of `dc2colander` over the whole `attrs`
dictionary. -/
def dc2colanderPost (fieldsL : List RField) (hidden readonly : List String)
    (attrs : List (String × CNode)) : List (String × CNode) :=
  attrs.map (dc2colanderPostNode fieldsL hidden readonly)

mutual
/-- `dataclass_field_to_colander_schemanode(prop, schema, request, oid_prefix,
mode, default_tzinfo, metadata)`: merge the metadata override, honour a
`colander.field_factory`, then dispatch on the declared type.  A nested
dataclass re-enters `dc2colander` for the nested type (with default filters
and the same mode) and yields the sub-schema instance; an unsupported type
reaches `raise KeyError(prop)`. -/
def dataclass_field_to_colander_schemanode (prop : RField) (oidPrefix : String)
    (mode : String) (metadata : Metadata) : Except Err CNode :=
  match prop with
  | .mk pname ptype pdef pfac pmeta =>
    let p : RField := .mk pname ptype pdef pfac pmeta
    let t := dataclass_get_type p
    let tMeta := t.metadata.update metadata
    match tMeta.colanderFieldFactory with
    | some ct => .ok (SchemaNode.ofParams (colander_params p oidPrefix ct))
    | none =>
      match ptype with
      | .tDate => .ok (SchemaNode.ofParams (colander_params p oidPrefix .cDate))
      | .tDatetime => .ok (SchemaNode.ofParams (colander_params p oidPrefix .cDateTime))
      | .tStr => .ok (SchemaNode.ofParams (colander_params p oidPrefix .cString))
      | .tInt => .ok (SchemaNode.ofParams (colander_params p oidPrefix .cInt))
      | .tFloat => .ok (SchemaNode.ofParams (colander_params p oidPrefix .cFloat))
      | .tBool => .ok (SchemaNode.ofParams (colander_params p oidPrefix .cBool))
      | .tRecord _ fs =>
          -- `subtype = dc2colander(t["type"], request=request,
          --    colander_schema_type=colander.MappingSchema, mode=mode)`
          -- followed by `return subtype()`: the body of `dc2colander` at its
          -- default filter arguments, applied to the nested field list.
          (match dc2colanderAttrs fs "deformField" mode []
              (modeExcludeFields mode fs) [] with
           | .error e => .error e
           | .ok attrs0 =>
              .ok (CNode.mk pname "" .cMappingSchema .creq .pnone none none none
                false false
                (dc2colanderPost fs.toList [] (modeReadonlyFields mode fs) attrs0)))
      | .tDict => .ok (SchemaNode.ofParams (colander_params p oidPrefix .cMapping))
      | .tList => .ok (SchemaNode.ofParams (colander_params p oidPrefix .cList))
      | .tFile => .ok (SchemaNode.ofParams (colander_params p oidPrefix .cFileData))
      | .tSet => .ok (SchemaNode.ofParams (colander_params p oidPrefix .cSet))
      | .tUnknown _ => .error (.keyError pname)

/-- The field-iteration loop of `dc2colander`: narrow to `include_fields` when
given, remove `exclude_fields`, and map each remaining field through
`dataclass_field_to_colander_schemanode` with its per-field metadata
override. -/
def dc2colanderAttrs (fields : FieldList) (oidPrefix mode : String)
    (include_fields exclude_fields : List String)
    (field_metadata : List (String × Metadata)) :
    Except Err (List (String × CNode)) :=
  match fields with
  | .nil => .ok []
  | .cons f rest =>
      let keep : Bool :=
        if include_fields.isEmpty then
          !(exclude_fields.contains f.name)
        else
          include_fields.contains f.name && !(exclude_fields.contains f.name)
      if keep then
        match dataclass_field_to_colander_schemanode f oidPrefix mode
            ((field_metadata.lookup f.name).getD {}) with
        | .error e => .error e
        | .ok node =>
            match dc2colanderAttrs rest oidPrefix mode include_fields
                exclude_fields field_metadata with
            | .error e => .error e
            | .ok tail => .ok ((f.name, node) :: tail)
      else
        dc2colanderAttrs rest oidPrefix mode include_fields exclude_fields
          field_metadata
end

/-- `dc2colander(schema, request, mode, include_fields, exclude_fields,
hidden_fields, readonly_fields, include_schema_validators, ...)`: extend the
readonly/exclude sets according to the mode, build the attribute dictionary,
and run the widget post-processing.  The attached record-level validator
closure (`include_schema_validators`) is modelled separately by
`replace_colander_null` and the wrapper models below. -/
def dc2colander (fields : FieldList) (mode : String := "default")
    (include_fields : List String := []) (exclude_fields : List String := [])
    (hidden_fields : List String := []) (readonly_fields : List String := [])
    (oidPrefix : String := "deformField")
    (field_metadata : List (String × Metadata) := []) :
    Except Err (List (String × CNode)) := do
  let readonlyAll := readonly_fields ++ modeReadonlyFields mode fields
  let excludeAll := exclude_fields ++ modeExcludeFields mode fields
  let attrs0 ← dc2colanderAttrs fields oidPrefix mode include_fields excludeAll
    field_metadata
  .ok (dc2colanderPost fields.toList hidden_fields readonlyAll attrs0)

/-! ## replace_colander_null and the wrapper adapters
    — src/inverter/dc2colander.py -/

/-- A value in the appstruct tree the aggregate validator pre-processes:
`vnull` is the `colander.null` sentinel, `vnone` is Python `None`. -/
inductive Value where
  | vnull : Value
  | vnone : Value
  | vstr : String → Value
  | vint : Int → Value
  | vbool : Bool → Value
  | vdict : List (String × Value) → Value
  | vlist : List Value → Value

/-- The comparison `v != colander.null` of the source: only the sentinel
itself compares equal to `colander.null`. -/
def Value.isNull : Value → Bool
  | .vnull => true
  | _ => false

/-- `replace_colander_null(appstruct, value=None)`: walk the dictionary once;
recurse into dictionary values (the recursive call passes no `value`, so it
reverts to the default `None`), replace `colander.null` among the immediate
elements of list values, and replace `colander.null` leaves. -/
def replace_colander_null (appstruct : List (String × Value))
    (value : Value := .vnone) : List (String × Value) :=
  match appstruct with
  | [] => []
  | (k, .vdict d) :: rest =>
      (k, .vdict (replace_colander_null d)) :: replace_colander_null rest value
  | (k, .vlist l) :: rest =>
      (k, .vlist (l.map (fun x => if x.isNull then value else x))) ::
        replace_colander_null rest value
  | (k, v) :: rest =>
      (k, if v.isNull then value else v) :: replace_colander_null rest value

/-- `PreparersWrapper.__call__(value)`: substitute the `colander.null`
sentinel with `None`, then thread the value through the preparer callables in
order.  The `request`/`schema`/`mode` arguments passed to every preparer are
constants of the wrapper and are absorbed into the callables. -/
def PreparersWrapper.call (preparers : List (Value → Value)) (value : Value) :
    Value :=
  let value := if value.isNull then .vnone else value
  preparers.foldl (fun acc p => p acc) value

/-- One validator outcome: `none` for success, `some msg` for a reported
error. -/
def ValidatorResult : Type := Option String

/-- `ValidatorsWrapper.__call__(node, value)`: run the validators in order and
raise `colander.Invalid` on the first non-empty error result. -/
def ValidatorsWrapper.call (validators : List (Value → Option String))
    (value : Value) : Except String Unit :=
  match validators with
  | [] => .ok ()
  | v :: rest =>
      match v value with
      | some err => .error err
      | none => ValidatorsWrapper.call rest value

/-! ## dc2colanderjson Date and DateTime — src/inverter/dc2colanderjson.py -/

/-- A Python `datetime.date`, represented by its offset in days from
1970-01-01 (proleptic Gregorian); `date` plus/minus `timedelta(days=n)` is
exact in this representation. -/
structure PyDate where
  days : Int
deriving DecidableEq, Repr

/-- `epoch_date = date(1970, 1, 1)`. -/
def epoch_date : PyDate := ⟨0⟩

/-- A Python `datetime.datetime` at millisecond resolution: the instant in
milliseconds from the epoch, and the attached timezone name.
`astimezone` preserves the instant and replaces the timezone. -/
structure PyDateTime where
  ms : Int
  tz : String
deriving DecidableEq, Repr

/-- A JSON-level cstruct value flowing through the serializers.  `jdateStr d`
is an ISO `YYYY-MM-DD` string denoting `d` (produced by `strftime`);
`jdtStr ms` is an ISO date-time string denoting the UTC instant `ms`
milliseconds from the epoch (produced by `datetime.isoformat`). -/
inductive JVal where
  | jnull : JVal
  | jint : Int → JVal
  | jstr : String → JVal
  | jdateStr : PyDate → JVal
  | jdtStr : Int → JVal
  | jother : JVal
deriving DecidableEq, Repr

/-- Python truthiness of a cstruct: `None`/`colander.null` and `0` and the
empty string are falsy; ISO strings are nonempty, hence truthy. -/
def JVal.truthy : JVal → Bool
  | .jnull => false
  | .jint n => n ≠ 0
  | .jstr s => s ≠ ""
  | .jdateStr _ => true
  | .jdtStr _ => true
  | .jother => true

/-- `isinstance(cstruct, int)` -/
def JVal.isInt : JVal → Bool
  | .jint _ => true
  | _ => false

/-- `isinstance(cstruct, str)` (ISO strings are strings) -/
def JVal.isStr : JVal → Bool
  | .jstr _ => true
  | .jdateStr _ => true
  | .jdtStr _ => true
  | _ => false

/-- `colander.Date.deserialize` (external library): a falsy cstruct maps to
`colander.null`; an ISO date string parses to the date it denotes; any other
value raises `colander.Invalid`. -/
def colanderDateDeserialize (cstruct : JVal) : Except String (Option PyDate) :=
  if !cstruct.truthy then .ok none
  else
    match cstruct with
    | .jdateStr d => .ok (some d)
    | _ => .error "Invalid date"

/-- `colander.DateTime.deserialize` (external library): a falsy cstruct maps
to `colander.null`; an ISO date-time string parses to the UTC instant it
denotes; any other value raises `colander.Invalid`. -/
def colanderDateTimeDeserialize (cstruct : JVal) :
    Except String (Option PyDateTime) :=
  if !cstruct.truthy then .ok none
  else
    match cstruct with
    | .jdtStr ms => .ok (some ⟨ms, "UTC"⟩)
    | _ => .error "Invalid datetime"

/-- `Date.serialize(node, appstruct)` of `dc2colanderjson`: the inherited
colander serialization yields `colander.null` exactly for a null appstruct
(then `None` is returned); otherwise the method returns
`(appstruct - epoch_date).days`. -/
def JsonDate.serialize (appstruct : Option PyDate) : Option Int :=
  match appstruct with
  | none => none
  | some d => some (d.days - epoch_date.days)

/-- `Date.deserialize(node, cstruct)` of `dc2colanderjson`: reject truthy
non-int non-str cstructs; convert a truthy int day-count into the ISO string
of `epoch_date + timedelta(days=cstruct)`; defer to
`colander.Date.deserialize`. -/
def JsonDate.deserialize (cstruct : JVal) : Except String (Option PyDate) :=
  if cstruct.truthy && !(cstruct.isInt || cstruct.isStr) then
    .error "Date is expected to be number of days after 1970-01-01, or in ISO formatted date string"
  else
    let c :=
      match cstruct with
      | .jint n => if (JVal.jint n).truthy then .jdateStr ⟨epoch_date.days + n⟩ else .jint n
      | other => other
    colanderDateDeserialize c

/-- `DateTime.serialize(node, appstruct)` of `dc2colanderjson`: a truthy
appstruct is first converted with `astimezone(pytz.UTC)` (instant preserved);
the inherited serialization yields `colander.null` exactly for a null
appstruct (then `None` is returned); otherwise the method returns
`int(appstruct.timestamp() * 1000)`, which is the instant's epoch-millisecond
count for whole-millisecond instants (sub-millisecond float effects are below
the representation's resolution). -/
def JsonDateTime.serialize (appstruct : Option PyDateTime) : Option Int :=
  match appstruct with
  | none => none
  | some dt => some dt.ms

/-- `DateTime.deserialize(node, cstruct)` of `dc2colanderjson`: reject truthy
non-int non-str cstructs; convert a truthy int epoch-millisecond count into
`datetime.fromtimestamp(int(cstruct) / 1000, tz=pytz.UTC).isoformat()`; defer
to `colander.DateTime.deserialize`; finally, a truthy result is converted to
the node's `default_tzinfo`. -/
def JsonDateTime.deserialize (default_tzinfo : String) (cstruct : JVal) :
    Except String (Option PyDateTime) :=
  if cstruct.truthy && !(cstruct.isInt || cstruct.isStr) then
    .error "DateTime is expected to in Unix timestamp in miliseconds in UTC, or in ISO formatted date string"
  else
    let c :=
      match cstruct with
      | .jint n => if (JVal.jint n).truthy then .jdtStr n else .jint n
      | other => other
    match colanderDateTimeDeserialize c with
    | .error e => .error e
    | .ok none => .ok none
    | .ok (some res) => .ok (some { res with tz := default_tzinfo })

/-! ## Helper definitions for stating the claims -/

/-- A field counted as non-editable by the mode logic of `dc2colander`:
`not prop.metadata.get("editable", True) or prop.metadata.get("readonly",
False)`. -/
def nonEditableField (f : RField) : Bool :=
  !(f.metadata.editable.getD true) || f.metadata.readonly.getD false

/-- Whether a jsl field is the nullable union `_set_nullable` builds: a
`OneOfField` whose second alternative is a `NullField`. -/
def JField.isNullableUnion : JField → Bool
  | .oneOfF _ (.nullF _) => true
  | _ => false

/-- The type list of the field named `fname` in an Avro schema document
(empty when no such field exists). -/
def avscFieldTypes (doc : AvscDoc) (fname : String) : List AvType :=
  match doc.fields.find? (fun f => f.name == fname) with
  | some f => f.types
  | none => []

/-- No `colander.null` sentinel remains at the positions
`replace_colander_null` can reach: values of the dictionary, recursively
through nested dictionaries, and the immediate elements of lists. -/
def entriesAccessibleNullFree : List (String × Value) → Bool
  | [] => true
  | (_, .vdict d) :: rest =>
      entriesAccessibleNullFree d && entriesAccessibleNullFree rest
  | (_, .vlist l) :: rest =>
      l.all (fun x => !x.isNull) && entriesAccessibleNullFree rest
  | (_, v) :: rest => !v.isNull && entriesAccessibleNullFree rest

/-! ## Concrete inputs used by the concrete theorems -/

/-- a required string field `"name"` (required via explicit metadata) -/
def fldName : RField := .mk "name" .tStr none none { required := some true }

/-- an optional integer field `"age"` (its default is Python `None`) -/
def fldAge : RField := .mk "age" .tInt (some .pnone) none {}

/-- the two-field example record of the spec's schema-document example -/
def personDC : DClass :=
  { dcname := "Person", fields := .cons fldName (.cons fldAge .nil) }

/-- the single field of the nested record type -/
def fldChildX : RField := .mk "x" .tStr none none {}

/-- a field whose declared type is the record type `Child` -/
def fldChild : RField :=
  .mk "child" (.tRecord "Child" (.cons fldChildX .nil)) none none {}

/-- a record containing a nested-record field -/
def parentDC : DClass := { dcname := "Parent", fields := .cons fldChild .nil }

/-- a field marked non-editable via metadata -/
def fldNonEditable : RField := .mk "a" .tStr none none { editable := some false }

/-- a one-field record whose field is non-editable -/
def editFL : FieldList := .cons fldNonEditable .nil

/-- a field whose declared type (`complex`) is outside the supported set -/
def fldBadType : RField := .mk "age" (.tUnknown "complex") none none {}

/-- a record containing the unsupported-type field -/
def badDC : DClass := { dcname := "Bad", fields := .cons fldBadType .nil }

/-- a field with no default, no default factory and empty metadata -/
def fldPlain : RField := .mk "x" .tInt none none {}

/-- two fields declared in reverse alphabetical order -/
def fldBbb : RField := .mk "bbb" .tStr none none {}

/-- second of the two reverse-ordered fields -/
def fldAaa : RField := .mk "aaa" .tInt none none {}

/-- a record whose declaration order is not alphabetical -/
def unordDC : DClass :=
  { dcname := "Unord", fields := .cons fldBbb (.cons fldAaa .nil) }

/-- an appstruct with a null sentinel inside a dictionary inside a list -/
def c7Tree : List (String × Value) := [("a", .vlist [.vdict [("b", .vnull)]])]

/-- a one-field record with only the optional integer field -/
def ageDC : DClass := { dcname := "S", fields := .cons fldAge .nil }

/-- the table `dc2pgsqla` produces for the reverse-declared record -/
def c10tbl : SqlaTable :=
  { name := "unord"
    cols := [{ name := "aaa", type_ := .sqlInteger },
             { name := "bbb", type_ := .sqlString 256 }] }

/-- the node `dc2colander` produces for the non-editable field under `edit`
mode: present, with a readonly text-input widget -/
def c3EditNode : CNode :=
  .mk "a" "deformField-a" .cString .creq .pnone
    (some { kind := .textInputW, hidden := false, readonly := true })
    none none false false []

/-- the node `dc2colander` produces for the non-editable field under the
default mode: present, with no widget -/
def c3DefaultNode : CNode :=
  .mk "a" "deformField-a" .cString .creq .pnone none none none false false []

/-! ## Generic lemmas about `exceptMap` -/

theorem exceptMap_ok_of_mem {α β ε : Type} {g : α → Except ε β} :
    ∀ {l : List α} {r : List β}, exceptMap g l = .ok r → ∀ {a : α}, a ∈ l →
      ∃ b, g a = .ok b := by
  intro l
  induction l with
  | nil => intro r _ a ha; cases ha
  | cons x xs ih =>
    intro r h a ha
    rw [exceptMap] at h
    cases hx : g x with
    | error e => rw [hx] at h; cases h
    | ok b =>
      rw [hx] at h
      cases hxs : exceptMap g xs with
      | error e => rw [hxs] at h; cases h
      | ok rest =>
        cases ha with
        | head => exact ⟨b, hx⟩
        | tail _ hmem => exact ih hxs hmem

theorem exceptMap_mem_ok {α β ε : Type} {g : α → Except ε β} :
    ∀ {l : List α} {r : List β}, exceptMap g l = .ok r → ∀ {b : β}, b ∈ r →
      ∃ a ∈ l, g a = .ok b := by
  intro l
  induction l with
  | nil =>
    intro r h b hb
    rw [exceptMap] at h
    cases h
    cases hb
  | cons x xs ih =>
    intro r h b hb
    rw [exceptMap] at h
    cases hx : g x with
    | error e => rw [hx] at h; cases h
    | ok c =>
      rw [hx] at h
      cases hxs : exceptMap g xs with
      | error e => rw [hxs] at h; cases h
      | ok rest =>
        rw [hxs] at h
        cases h
        cases hb with
        | head => exact ⟨x, List.mem_cons_self x xs, hx⟩
        | tail _ hmem =>
            obtain ⟨a, ha, hga⟩ := ih hxs hmem
            exact ⟨a, List.mem_cons_of_mem x ha, hga⟩

theorem exceptMap_map_names {α β γ ε : Type} {g : α → Except ε β}
    {nb : β → γ} {na : α → γ} (hp : ∀ a b, g a = .ok b → nb b = na a) :
    ∀ {l : List α} {r : List β}, exceptMap g l = .ok r → r.map nb = l.map na := by
  intro l
  induction l with
  | nil =>
    intro r h
    rw [exceptMap] at h
    cases h
    rfl
  | cons x xs ih =>
    intro r h
    rw [exceptMap] at h
    cases hx : g x with
    | error e => rw [hx] at h; cases h
    | ok c =>
      rw [hx] at h
      cases hxs : exceptMap g xs with
      | error e => rw [hxs] at h; cases h
      | ok rest =>
        rw [hxs] at h
        cases h
        simp [List.map_cons, hp x c hx, ih hxs]

/-! ## Claim theorems -/

/-- C1: the claim says every target converter maps a nested-record field to an
embedded sub-schema containing all of the nested record's fields.  The code
disagrees for three converters: `dc2esmapping` builds the `{"type": "object"}`
fragment but lacks a `return`, falling through to `raise KeyError(prop)`;
`dc2avsc` recurses with the Field object instead of the nested class and
raises AttributeError; `dc2jsl` recurses with the unknown keyword argument
`nullable` and raises TypeError.  Only the form-schema converter
(`dc2colander`) actually embeds a sub-schema carrying the nested record's
fields. -/
theorem c1_nested_record_conversion :
    dc2esmapping parentDC = .error (.keyError "child") ∧
    dc2avsc parentDC
      = .error (.attributeError "Field object has no attribute __name__") ∧
    dc2jsl parentDC
      = .error (.typeError "dc2jsl() got an unexpected keyword argument nullable") ∧
    (dc2colander parentDC.fields "default").map
        (fun res => res.map
          (fun (kv : String × CNode) => (kv.1, kv.2.subnodes.map Prod.fst)))
      = .ok [("child", ["x"])] :=
  ⟨rfl, rfl, rfl, rfl⟩

/-- C2 counterexample: with its default options (`ignore_required = True`),
`dc2avsc` appends the `"null"` marker to the type list of the required
`"name"` field as well, contradicting the claim that the `"name"` type list
contains no `"null"` entry. -/
theorem c2_counterexample :
    (dc2avsc personDC).map
        (fun doc => ((avscFieldTypes doc "name").contains (.plain "null"),
                     (avscFieldTypes doc "age").contains (.plain "null")))
      = .ok (true, true) := rfl

/-- C2 (amended): calling `dc2avsc` with `ignore_required = False` (the
default is `True`, which forces every field non-required) on the
name/age record yields a `"name"` type list without `"null"` and an `"age"`
type list with `"null"`; requiredness is read from the field's `required`
metadata key. -/
theorem c2_amended_ignore_required_false :
    (dc2avsc personDC "inverter" false).map
        (fun doc => ((avscFieldTypes doc "name").contains (.plain "null"),
                     (avscFieldTypes doc "age").contains (.plain "null")))
      = .ok (false, true) := rfl

/-- C5 counterexample: the serialized day-count and epoch-millisecond count of
the epoch itself is `0`, which the deserializers treat as falsy and map to the
null marker instead of the original value, contradicting the round-trip claim
for every date/datetime. -/
theorem c5_counterexample :
    JsonDate.serialize (some epoch_date) = some 0 ∧
    JsonDate.deserialize (.jint 0) = .ok none ∧
    JsonDateTime.serialize (some ⟨0, "UTC"⟩) = some 0 ∧
    JsonDateTime.deserialize "UTC" (.jint 0) = .ok none :=
  ⟨rfl, rfl, rfl, rfl⟩

/-- C5 (amended): for every date other than 1970-01-01 and every datetime
whose instant is not exactly the epoch (serialized value `0` is treated as
falsy), serializing with the JSON-safe form-node variants and deserializing
the result reproduces the original value — dates exactly, datetimes at
millisecond precision and expressed in the configured default timezone. -/
theorem c5_amended_roundtrip :
    (∀ (d : PyDate) (n : Int), JsonDate.serialize (some d) = some n → n ≠ 0 →
        JsonDate.deserialize (.jint n) = .ok (some d)) ∧
    (∀ (dt : PyDateTime) (tzname : String) (n : Int),
        JsonDateTime.serialize (some dt) = some n → n ≠ 0 →
        JsonDateTime.deserialize tzname (.jint n) = .ok (some ⟨dt.ms, tzname⟩)) := by
  constructor
  · intro d n h hn
    rw [JsonDate.serialize] at h
    cases h
    simp [epoch_date] at hn
    simp [JsonDate.deserialize, JVal.truthy, JVal.isInt, JVal.isStr, hn,
      colanderDateDeserialize, epoch_date]
  · intro dt tzname n h hn
    rw [JsonDateTime.serialize] at h
    cases h
    simp [JsonDateTime.deserialize, JVal.truthy, JVal.isInt, JVal.isStr, hn,
      colanderDateTimeDeserialize]

/-- C5 witness: the round-trip theorem applied to the concrete date five days
after the epoch and the concrete instant one second after the epoch. -/
theorem c5_witness :
    (JsonDate.serialize (some ⟨5⟩) = some 5 ∧ (5 : Int) ≠ 0 ∧
      JsonDate.deserialize (.jint 5) = .ok (some ⟨5⟩)) ∧
    (JsonDateTime.serialize (some ⟨1000, "US/Eastern"⟩) = some 1000 ∧
      (1000 : Int) ≠ 0 ∧
      JsonDateTime.deserialize "UTC" (.jint 1000) = .ok (some ⟨1000, "UTC"⟩)) :=
  ⟨⟨rfl, by decide, c5_amended_roundtrip.1 ⟨5⟩ 5 rfl (by decide)⟩,
   ⟨rfl, by decide, c5_amended_roundtrip.2 ⟨1000, "US/Eastern"⟩ "UTC" 1000 rfl (by decide)⟩⟩

/-- C6 counterexample: under the default `ignore_required = False`, the
non-required field `"age"` is emitted as a plain `IntField`, not wrapped in a
nullable union, contradicting the claim that every non-required field is
wrapped. -/
theorem c6_counterexample :
    dc2jsl ageDC
      = .ok { attrs := [("age", .intF "age" false)],
              additional_properties := false } ∧
    (JField.intF "age" false).required = false ∧
    (JField.intF "age" false).isNullableUnion = false :=
  ⟨rfl, rfl, rfl⟩

/-- C7 counterexample: `replace_colander_null` does not replace a null
sentinel sitting inside a mapping nested within a list — the tree comes back
unchanged with the sentinel still at the inner position, contradicting the
claim that every occurrence anywhere in the value tree is replaced. -/
theorem c7_counterexample :
    replace_colander_null c7Tree = c7Tree ∧
    (match replace_colander_null c7Tree with
     | [(_, .vlist [.vdict [(_, b)]])] => b
     | _ => .vnone) = .vnull :=
  ⟨rfl, rfl⟩

/-- C9 counterexample: a field with no default value, no default factory and
empty metadata is treated as NOT required by the schema-document converter —
even with `ignore_required = False`, `dc2avsc` reads requiredness only from
the `required` metadata key (defaulting to `False`) and appends `"null"` —
contradicting the claim that such a field is treated as required by every
converter. -/
theorem c9_counterexample :
    fldPlain.fdefault = none ∧ fldPlain.default_factory = none ∧
    fldPlain.metadata = {} ∧
    dataclass_field_to_avsc_field fldPlain false
      = .ok { name := "x", types := [.plain "int", .plain "null"] } :=
  ⟨rfl, rfl, rfl, rfl⟩


/-- After the aggregate validator's pre-processing with the default
replacement value, no null sentinel remains at any position the walk reaches:
dictionary values, recursively through nested dictionaries, and immediate
list elements. -/
theorem replace_null_accessible_free :
    ∀ (d : List (String × Value)),
      entriesAccessibleNullFree (replace_colander_null d .vnone) = true
  | [] => by simp [replace_colander_null, entriesAccessibleNullFree]
  | (_, .vdict d') :: rest => by
      have ih1 := replace_null_accessible_free d'
      have ih2 := replace_null_accessible_free rest
      simp [replace_colander_null, entriesAccessibleNullFree, ih1, ih2]
  | (_, .vlist l) :: rest => by
      have ih2 := replace_null_accessible_free rest
      simp [replace_colander_null, entriesAccessibleNullFree, ih2]
      intro x hx
      cases hyn : x.isNull
      case false => exact hyn
      case true => simp [hyn, Value.isNull]
  | (_, .vnull) :: rest => by
      have ih2 := replace_null_accessible_free rest
      simp [replace_colander_null, entriesAccessibleNullFree, ih2, Value.isNull]
  | (_, .vnone) :: rest => by
      have ih2 := replace_null_accessible_free rest
      simp [replace_colander_null, entriesAccessibleNullFree, ih2, Value.isNull]
  | (_, .vstr s) :: rest => by
      have ih2 := replace_null_accessible_free rest
      simp [replace_colander_null, entriesAccessibleNullFree, ih2, Value.isNull]
  | (_, .vint n) :: rest => by
      have ih2 := replace_null_accessible_free rest
      simp [replace_colander_null, entriesAccessibleNullFree, ih2, Value.isNull]
  | (_, .vbool b) :: rest => by
      have ih2 := replace_null_accessible_free rest
      simp [replace_colander_null, entriesAccessibleNullFree, ih2, Value.isNull]

/-- C7 (amended): the aggregate validator's pre-processing replaces the null
sentinel at every position it reaches — dictionary values, recursively
through nested dictionaries, and the immediate elements of lists — but does
not descend into containers nested inside lists; and the preparer wrapper
substitutes the null sentinel with `None` (the plain absence marker) before
the first preparer callable runs. -/
theorem c7_amended :
    (∀ (d : List (String × Value)),
        entriesAccessibleNullFree (replace_colander_null d .vnone) = true) ∧
    (∀ (p : Value → Value) (ps : List (Value → Value)),
        PreparersWrapper.call (p :: ps) .vnull
          = ps.foldl (fun acc q => q acc) (p .vnone)) :=
  ⟨replace_null_accessible_free, fun _ _ => rfl⟩

/-- C8: converting any record containing a nested-record field with
`dc2pgsqla` fails: no table is produced, and mapping a record whose sole
field is the nested one raises
`NotImplementedError("Sub schema is not supported")`. -/
theorem c8_nested_record_fails (schema : DClass) (f : RField)
    (nm : Option String) (hf : f ∈ schema.fields.toList)
    (hn : is_dataclass_field f = true) :
    (∃ e, dc2pgsqla schema nm = .error e) ∧
    dc2pgsqla { dcname := "One", fields := .cons f .nil } none
      = .error (.notImplementedError "Sub schema is not supported") := by
  have hcol : dataclass_field_to_sqla_col f
      = .error (.notImplementedError "Sub schema is not supported") := by
    rcases f with ⟨n, t, d, df, m⟩
    cases t <;> first
      | rfl
      | simp [is_dataclass_field, RField.ftype] at hn
  constructor
  · cases h : dc2pgsqla schema nm with
    | error e => exact ⟨e, rfl⟩
    | ok tbl =>
        exfalso
        unfold dc2pgsqla at h
        cases hm : exceptMap dataclass_field_to_sqla_col
            (schema.fields.toList.insertionSort fieldNameLe) with
        | error e => rw [hm] at h; simp [Bind.bind, Except.bind] at h
        | ok cols =>
            have hmem : f ∈ schema.fields.toList.insertionSort fieldNameLe :=
              ((List.perm_insertionSort fieldNameLe _).mem_iff).mpr hf
            obtain ⟨b, hb⟩ := exceptMap_ok_of_mem hm hmem
            rw [hcol] at hb
            cases hb
  · simp [dc2pgsqla, FieldList.toList, List.insertionSort, List.orderedInsert,
      exceptMap, hcol, Bind.bind, Except.bind]

/-- C8 witness: the theorem applied to the concrete record containing the
nested-record field `"child"`. -/
theorem c8_witness :
    (fldChild ∈ parentDC.fields.toList ∧ is_dataclass_field fldChild = true) ∧
    ((∃ e, dc2pgsqla parentDC none = .error e) ∧
      dc2pgsqla { dcname := "One", fields := .cons fldChild .nil } none
        = .error (.notImplementedError "Sub schema is not supported")) :=
  ⟨⟨List.mem_singleton.mpr rfl, rfl⟩,
   c8_nested_record_fails parentDC fldChild none (List.mem_singleton.mpr rfl) rfl⟩

/-- A successfully mapped column carries the field's name. -/
theorem sqla_col_name (f : RField) (c : SqlaCol)
    (h : dataclass_field_to_sqla_col f = .ok c) : c.name = f.name := by
  rcases f with ⟨n, t, d, df, m⟩
  cases t <;>
    (simp only [dataclass_field_to_sqla_col, dataclass_get_type,
        RField.ftype] at h
     try split_ifs at h
     all_goals (cases h <;> rfl))

/-- C10: the table-column converter emits the columns sorted alphabetically by
field name: whenever `dc2pgsqla` succeeds, the column name sequence is sorted
and is a permutation of the record's field names, so it coincides with the
field names sorted by name regardless of declaration order. -/
theorem c10_sorted_columns (schema : DClass) (nm : Option String)
    (tbl : SqlaTable) (h : dc2pgsqla schema nm = .ok tbl) :
    List.Sorted (· ≤ ·) (tbl.cols.map SqlaCol.name) ∧
    (tbl.cols.map SqlaCol.name).Perm (schema.fields.toList.map RField.name) := by
  unfold dc2pgsqla at h
  cases hm : exceptMap dataclass_field_to_sqla_col
      (schema.fields.toList.insertionSort fieldNameLe) with
  | error e => rw [hm] at h; simp [Bind.bind, Except.bind] at h
  | ok cols =>
      rw [hm] at h
      simp only [Bind.bind, Except.bind] at h
      cases h
      have hnames : cols.map SqlaCol.name
          = (schema.fields.toList.insertionSort fieldNameLe).map RField.name :=
        exceptMap_map_names sqla_col_name hm
      constructor
      · show List.Sorted (· ≤ ·) (cols.map SqlaCol.name)
        rw [hnames]
        exact List.Pairwise.map _ (fun a b hab => hab)
          (List.sorted_insertionSort fieldNameLe schema.fields.toList)
      · show (cols.map SqlaCol.name).Perm _
        rw [hnames]
        exact (List.perm_insertionSort fieldNameLe _).map RField.name

/-- C10 witness: the theorem applied to the record declared in reverse
alphabetical order, whose table lists the columns alphabetically. -/
theorem c10_witness :
    dc2pgsqla unordDC (some "unord") = .ok c10tbl ∧
    (List.Sorted (· ≤ ·) (c10tbl.cols.map SqlaCol.name) ∧
      (c10tbl.cols.map SqlaCol.name).Perm
        (unordDC.fields.toList.map RField.name)) := by
  have h0 : dc2pgsqla unordDC (some "unord") = .ok c10tbl := by
    simp [dc2pgsqla, unordDC, FieldList.toList, List.insertionSort,
      List.orderedInsert, fieldNameLe, fldAaa, fldBbb, RField.name, exceptMap,
      dataclass_field_to_sqla_col, dataclass_get_type, sqlalchemy_params,
      c10tbl, Bind.bind, Except.bind, RField.ftype, RField.metadata,
      RField.fdefault, RField.default_factory]
    try decide
  exact ⟨h0, c10_sorted_columns unordDC (some "unord") c10tbl h0⟩

/-- C4 counterexample: for a field `"age"` of the unsupported type `complex`,
the schema-document converter raises
`TypeError("Unknown Avro type for <class complex>")` — an error that names
the offending type but does not identify the offending field, contradicting
the claim that every converter's error identifies the field. -/
theorem c4_counterexample :
    dc2avsc badDC "inverter" false
      = .error (.typeError "Unknown Avro type for <class complex>") ∧
    (Err.typeError "Unknown Avro type for <class complex>").identifiesField
        "age" = false :=
  ⟨rfl, by decide⟩

/-- C4 (amended): a field whose declared type is outside the supported set
makes every converter fail immediately; the form-schema, index-mapping,
JSON-Schema-like and table-column converters raise `KeyError(prop)`, which
identifies the offending field, while the schema-document converter raises a
TypeError naming the unrecognized type instead of the field. -/
theorem c4_unrecognized_type (f : RField) (ty : String)
    (hty : f.ftype = .tUnknown ty)
    (hff : f.metadata.colanderFieldFactory = none) :
    (∀ ig, dataclass_field_to_avsc_field f ig
        = .error (.typeError
            ("Unknown Avro type for " ++ FieldType.pyRepr (.tUnknown ty)))) ∧
    (∀ oidp mode, dataclass_field_to_colander_schemanode f oidp mode {}
        = .error (.keyError f.name)) ∧
    (∀ md, dataclass_field_to_esmapping f md = .error (.keyError f.name)) ∧
    (∀ nb mode, dataclass_field_to_jsl_field f nb mode
        = .error (.keyError f.name)) ∧
    (dataclass_field_to_sqla_col f = .error (.keyError f.name)) ∧
    ((Err.keyError f.name).identifiesField f.name = true) ∧
    (∀ ig ns, dc2avsc { dcname := "D", fields := .cons f .nil } ns ig
        = .error (.typeError
            ("Unknown Avro type for " ++ FieldType.pyRepr (.tUnknown ty)))) ∧
    (dc2esmapping { dcname := "D", fields := .cons f .nil }
        = .error (.keyError f.name)) := by
  rcases f with ⟨n, t, d, df, m⟩
  simp only [RField.ftype] at hty
  subst hty
  simp only [RField.metadata] at hff
  have havsc : ∀ ig,
      dataclass_field_to_avsc_field (RField.mk n (.tUnknown ty) d df m) ig
        = .error (.typeError
            ("Unknown Avro type for " ++ FieldType.pyRepr (.tUnknown ty))) := by
    intro ig
    simp [dataclass_field_to_avsc_field, dataclass_get_type, RField.ftype]
  have hes : ∀ md,
      dataclass_field_to_esmapping (RField.mk n (.tUnknown ty) d df m) md
        = .error (.keyError n) := by
    intro md
    simp [dataclass_field_to_esmapping, dataclass_get_type, RField.ftype,
      RField.name]
  refine ⟨havsc, ?_, hes, ?_, rfl, ?_, ?_, ?_⟩
  · intro oidp mode
    simp [dataclass_field_to_colander_schemanode, dataclass_get_type,
      Metadata.update, RField.metadata, hff, RField.name]
  · intro nb mode
    rfl
  · simp [Err.identifiesField]
  · intro ig ns
    simp [dc2avsc, FieldList.toList, exceptMap, havsc, Bind.bind, Except.bind]
  · simp [dc2esmapping, FieldList.toList, exceptMap, hes, Bind.bind,
      Except.bind, RField.name]

/-- C4 witness: the amended theorem applied to the concrete field `"age"` of
type `complex`. -/
theorem c4_witness :
    (fldBadType.ftype = .tUnknown "complex" ∧
      fldBadType.metadata.colanderFieldFactory = none) ∧
    (dataclass_field_to_avsc_field fldBadType true
        = .error (.typeError
            ("Unknown Avro type for " ++ FieldType.pyRepr (.tUnknown "complex"))) ∧
      dataclass_field_to_colander_schemanode fldBadType "deformField" "default" {}
        = .error (.keyError "age") ∧
      dataclass_field_to_esmapping fldBadType {} = .error (.keyError "age") ∧
      dataclass_field_to_jsl_field fldBadType false "default"
        = .error (.keyError "age") ∧
      dataclass_field_to_sqla_col fldBadType = .error (.keyError "age") ∧
      (Err.keyError "age").identifiesField "age" = true ∧
      dc2avsc { dcname := "D", fields := .cons fldBadType .nil } "inverter" true
        = .error (.typeError
            ("Unknown Avro type for " ++ FieldType.pyRepr (.tUnknown "complex"))) ∧
      dc2esmapping { dcname := "D", fields := .cons fldBadType .nil }
        = .error (.keyError "age")) := by
  obtain ⟨h1, h2, h3, h4, h5, h6, h7, h8⟩ :=
    c4_unrecognized_type fldBadType "complex" rfl rfl
  exact ⟨⟨rfl, rfl⟩, h1 true, h2 "deformField" "default", h3 {},
    h4 false "default", h5, h6, h7 true "inverter", h8⟩

/-- Inversion for `dc2jsl`: a successful conversion determines the attribute
list as the mapped field loop. -/
theorem dc2jsl_ok_attrs (schema : DClass) (ig ap : Bool) (mode : String)
    (doc : JDoc) (h : dc2jsl schema ig ap mode = .ok doc) :
    exceptMap (dc2jslAttrEntry ig mode) schema.fields.toList = .ok doc.attrs := by
  simp only [dc2jsl] at h
  cases hm : exceptMap (dc2jslAttrEntry ig mode) schema.fields.toList with
  | error e => rw [hm] at h; simp [Bind.bind, Except.bind] at h
  | ok attrs =>
      rw [hm] at h
      simp only [Bind.bind, Except.bind] at h
      cases h
      rfl

/-- The per-field jsl mapper never sets a pattern on the string fields it
creates. -/
theorem jsl_field_pattern_none (f : RField) (nb : Bool) (mode : String)
    (jf : JField) (h : dataclass_field_to_jsl_field f nb mode = .ok jf) :
    ∀ nmf r q, jf = .strF nmf r q → q = none := by
  rcases f with ⟨n, t, d, df, m⟩
  cases t <;>
    simp [dataclass_field_to_jsl_field, dataclass_get_type, RField.ftype] at h <;>
    (intro nmf r q hq; subst h; simp at hq) <;> simp [hq.2.2]

/-- C6 (amended): in `dc2jsl`, when called with `ignore_required = True`
every emitted field that is not required is wrapped in the nullable union
(a one-of with a null field alternative); when called with
`ignore_required = False` (the default) every emitted required string field
carries the catch-all non-empty pattern `".+"` (the per-field mapper never
sets an explicit pattern).  Under the default options non-required fields are
emitted unwrapped. -/
theorem c6_nullable_union_and_pattern :
    (∀ (schema : DClass) (ap : Bool) (mode : String) (doc : JDoc),
        dc2jsl schema true ap mode = .ok doc →
        ∀ kv ∈ doc.attrs,
          (kv.2 : JField).isNullableUnion = true ∨
            (kv.2 : JField).required = true) ∧
    (∀ (schema : DClass) (ap : Bool) (mode : String) (doc : JDoc),
        dc2jsl schema false ap mode = .ok doc →
        ∀ kv ∈ doc.attrs, ∀ nmf p,
          (kv.2 : JField) = JField.strF nmf true p → p = some ".+") := by
  constructor
  · intro schema ap mode doc h kv hkv
    obtain ⟨f, _, hEf⟩ :=
      exceptMap_mem_ok (dc2jsl_ok_attrs schema true ap mode doc h) hkv
    cases hp : dataclass_field_to_jsl_field f true mode with
    | error e =>
        rw [dc2jslAttrEntry, hp] at hEf
        simp [Bind.bind, Except.bind] at hEf
    | ok prop =>
        rw [dc2jslAttrEntry, hp] at hEf
        simp [Bind.bind, Except.bind, pure, Except.pure] at hEf
        cases hEf
        cases hr : prop.required
        · left
          simp [_set_nullable, hr, JField.isNullableUnion]
        · right
          simp [_set_nullable, hr]
  · intro schema ap mode doc h kv hkv
    obtain ⟨f, _, hEf⟩ :=
      exceptMap_mem_ok (dc2jsl_ok_attrs schema false ap mode doc h) hkv
    intro nmf p hkv2
    cases hp : dataclass_field_to_jsl_field f false mode with
    | error e =>
        rw [dc2jslAttrEntry, hp] at hEf
        simp [Bind.bind, Except.bind] at hEf
    | ok prop =>
        rw [dc2jslAttrEntry, hp] at hEf
        simp only [Bind.bind, Except.bind, Bool.false_eq_true, if_false] at hEf
        have hpat := jsl_field_pattern_none f false mode prop hp
        cases hr : prop.required with
        | false =>
            rw [hr] at hEf
            simp [pure, Except.pure] at hEf
            cases hEf
            have hkv3 : prop = JField.strF nmf true p := hkv2
            rw [hkv3] at hr
            simp [JField.required] at hr
        | true =>
            rw [hr] at hEf
            simp only [Bool.not_true, Bool.false_eq_true, if_false] at hEf
            cases prop with
            | strF n2 r2 q2 =>
                cases q2 with
                | none =>
                    simp [pure, Except.pure] at hEf
                    cases hEf
                    simp at hkv2
                    exact hkv2.2.2.symm
                | some q =>
                    exact absurd (hpat n2 r2 (some q) rfl) (by simp)
            | dtF n2 r2 =>
                simp [pure, Except.pure] at hEf
                cases hEf
                simp at hkv2
            | intF n2 r2 =>
                simp [pure, Except.pure] at hEf
                cases hEf
                simp at hkv2
            | numF n2 r2 =>
                simp [pure, Except.pure] at hEf
                cases hEf
                simp at hkv2
            | boolF n2 r2 =>
                simp [pure, Except.pure] at hEf
                cases hEf
                simp at hkv2
            | dictF n2 r2 =>
                simp [pure, Except.pure] at hEf
                cases hEf
                simp at hkv2
            | arrF n2 r2 =>
                simp [pure, Except.pure] at hEf
                cases hEf
                simp at hkv2
            | nullF n2 =>
                simp [pure, Except.pure] at hEf
                cases hEf
                simp at hkv2
            | oneOfF a b =>
                simp [pure, Except.pure] at hEf
                cases hEf
                simp at hkv2

/-- C6 witness: the amended theorem applied to the one-field optional record
(wrapping under `ignore_required = True`) and to the name/age record
(catch-all pattern on the required string field under the default). -/
theorem c6_witness :
    (dc2jsl ageDC true false "default"
        = .ok { attrs := [("age", .oneOfF (.intF "age" false) (.nullF "age"))],
                additional_properties := false } ∧
      ((JField.oneOfF (.intF "age" false) (.nullF "age")).isNullableUnion = true ∨
        (JField.oneOfF (.intF "age" false) (.nullF "age")).required = true)) ∧
    (dc2jsl personDC false false "default"
        = .ok { attrs := [("name", .strF "name" true (some ".+")),
                          ("age", .intF "age" false)],
                additional_properties := false } ∧
      some ".+" = some ".+") := by
  have h1 : dc2jsl ageDC true false "default"
      = .ok { attrs := [("age", .oneOfF (.intF "age" false) (.nullF "age"))],
              additional_properties := false } := rfl
  have h2 : dc2jsl personDC false false "default"
      = .ok { attrs := [("name", .strF "name" true (some ".+")),
                        ("age", .intF "age" false)],
              additional_properties := false } := rfl
  refine ⟨⟨h1, ?_⟩, ⟨h2, ?_⟩⟩
  · exact c6_nullable_union_and_pattern.1 ageDC false "default" _ h1
      ("age", .oneOfF (.intF "age" false) (.nullF "age"))
      (List.mem_singleton.mpr rfl)
  · exact c6_nullable_union_and_pattern.2 personDC false "default" _ h2
      ("name", .strF "name" true (some ".+"))
      (List.mem_cons_self _ _) "name" (some ".+") rfl

/-- C9 (amended): a field with no default value, no default factory and empty
metadata is treated as required by the introspector (requiredness is the
negation of having a usable default, overridable by explicit metadata), and
hence by the form-schema converter (`missing = colander.required`) and the
JSON-Schema-like converter (`required = True` in default mode) — but the
schema-document converter `dc2avsc` derives requiredness solely from the
`required` metadata key and emits the field as nullable. -/
theorem c9_required_negation (f : RField) (hd : f.fdefault = none)
    (hdf : f.default_factory = none) (hm : f.metadata = {}) :
    (dataclass_get_type f).required = true ∧
    (∀ oidp mode n,
        dataclass_field_to_colander_schemanode f oidp mode {} = .ok n →
        n.missing = .creq) ∧
    (∀ jf, dataclass_field_to_jsl_field f false "default" = .ok jf →
        jf.required = true) ∧
    (∀ ig av, dataclass_field_to_avsc_field f ig = .ok av →
        (AvType.plain "null") ∈ av.types) := by
  rcases f with ⟨n0, t, d, df, m⟩
  simp only [RField.fdefault] at hd
  simp only [RField.default_factory] at hdf
  simp only [RField.metadata] at hm
  subst hd
  subst hdf
  subst hm
  refine ⟨rfl, ?_, ?_, ?_⟩
  · intro oidp mode n h
    cases t <;>
      simp [dataclass_field_to_colander_schemanode, Metadata.update,
        dataclass_get_type, colander_params, SchemaNode.ofParams,
        RField.metadata, RField.ftype, RField.name, RField.fdefault,
        RField.default_factory, CNode.missing] at h ⊢ <;>
      first
        | (cases h; rfl)
        | skip
    case tRecord rn fs =>
      cases hsub : dc2colanderAttrs fs "deformField" mode []
          (modeExcludeFields mode fs) [] with
      | error e => rw [hsub] at h; cases h
      | ok attrs0 =>
          rw [hsub] at h
          cases h
          rfl
  · intro jf h
    cases t <;>
      simp [dataclass_field_to_jsl_field, dataclass_get_type, RField.ftype,
        RField.metadata, RField.fdefault, RField.default_factory,
        RField.name] at h <;>
      simp [← h, JField.required]
  · intro ig av h
    cases t <;>
      simp [dataclass_field_to_avsc_field, dataclass_get_type, RField.ftype,
        RField.metadata, RField.fdefault, RField.default_factory,
        RField.name] at h <;>
      simp [← h]

/-- C9 witness: the amended theorem applied to the concrete field `"x"` with
no default and empty metadata. -/
theorem c9_witness :
    (fldPlain.fdefault = none ∧ fldPlain.default_factory = none ∧
      fldPlain.metadata = {}) ∧
    ((dataclass_get_type fldPlain).required = true ∧
      (CNode.mk "x" "deformField-x" .cInt .creq .pnone none none none false
          false []).missing = .creq ∧
      (JField.intF "x" true).required = true ∧
      (AvType.plain "null") ∈ [AvType.plain "int", AvType.plain "null"]) := by
  obtain ⟨h1, h2, h3, h4⟩ := c9_required_negation fldPlain rfl rfl rfl
  exact ⟨⟨rfl, rfl, rfl⟩, h1, h2 "deformField" "default" _ rfl,
    h3 (.intF "x" true) rfl, h4 false _ rfl⟩

/-- Merging an empty metadata override changes nothing. -/
theorem Metadata.update_empty (m : Metadata) : Metadata.update m {} = m := by
  cases m
  simp [Metadata.update]

/-- Reading back an assigned widget. -/
theorem CNode.setWidget_widget (n : CNode) (w : Option Widget) :
    (n.setWidget w).widget = w := by
  cases n
  rfl

/-- The widget post-processing keeps each attribute entry under its key. -/
theorem dc2colanderPostNode_fst (fl : List RField) (hid ro : List String)
    (kv : String × CNode) : (dc2colanderPostNode fl hid ro kv).1 = kv.1 := by
  rcases kv with ⟨a, node⟩
  simp only [dc2colanderPostNode]
  cases hf : fl.find? (fun g => g.name == a) <;> simp

/-- A field listed in `readonly_fields` leaves post-processing with a widget
marked readonly (manufacturing one when none exists). -/
theorem postNode_readonly_true (fl : List RField) (ro : List String)
    (a : String) (n : CNode) (dcp : RField)
    (hfind : fl.find? (fun g => g.name == a) = some dcp)
    (hro : ro.contains a = true) :
    ((dc2colanderPostNode fl [] ro (a, n)).2).readonlyWidget = true := by
  rcases n with ⟨nn, no, nt, nm, nd, nw, nti, nde, nv, np, ns⟩
  simp only [dc2colanderPostNode, hfind, hro]
  cases nw <;>
    cases hft : (dataclass_get_type dcp).ftype <;>
      simp [hft, CNode.widget, CNode.setWidget, CNode.readonlyWidget,
        List.contains]

/-- A field not listed in `readonly_fields` (with empty `hidden_fields`) whose
node has no widget leaves post-processing without a readonly widget. -/
theorem postNode_not_readonly (fl : List RField) (ro : List String)
    (a : String) (n : CNode)
    (hro : ro.contains a = false) (hw : n.widget = none) :
    ((dc2colanderPostNode fl [] ro (a, n)).2).readonlyWidget = false := by
  rcases n with ⟨nn, no, nt, nm, nd, nw, nti, nde, nv, np, ns⟩
  simp only [CNode.widget] at hw
  subst hw
  simp only [dc2colanderPostNode]
  cases hfind : fl.find? (fun g => g.name == a) with
  | none => simp [CNode.readonlyWidget, CNode.widget]
  | some dcp =>
      simp only [hro]
      cases hft : (dataclass_get_type dcp).ftype <;>
        simp [hft, CNode.widget, CNode.setWidget, CNode.readonlyWidget,
          List.contains] <;>
        split_ifs <;>
        simp [CNode.widget, CNode.setWidget, CNode.readonlyWidget]

/-- The keys of the attribute dictionary built by the field loop are exactly
the names of the non-excluded fields, in order (with no include list). -/
theorem dc2colanderAttrs_keys :
    ∀ (fields : FieldList) (oidp mode : String) (excl : List String)
      (fm : List (String × Metadata)) (res : List (String × CNode)),
      dc2colanderAttrs fields oidp mode [] excl fm = .ok res →
      res.map Prod.fst
        = (fields.toList.filter (fun g => !(excl.contains g.name))).map
            RField.name
  | .nil, _, _, _, _, res, h => by
      rw [dc2colanderAttrs] at h
      cases h
      rfl
  | .cons f rest, oidp, mode, excl, fm, res, h => by
      rw [dc2colanderAttrs] at h
      simp only [List.isEmpty_nil, if_true] at h
      cases hk : excl.contains f.name with
      | true =>
          rw [hk] at h
          simp only [Bool.not_true, Bool.false_eq_true, if_false] at h
          have ih := dc2colanderAttrs_keys rest oidp mode excl fm res h
          simp at hk
          simp [FieldList.toList, List.filter_cons, hk, ih]
      | false =>
          rw [hk] at h
          simp only [Bool.not_false, if_true] at h
          cases hn : dataclass_field_to_colander_schemanode f oidp mode
              ((fm.lookup f.name).getD {}) with
          | error e => rw [hn] at h; cases h
          | ok node =>
              rw [hn] at h
              cases ht : dc2colanderAttrs rest oidp mode [] excl fm with
              | error e => rw [ht] at h; cases h
              | ok tail =>
                  rw [ht] at h
                  cases h
                  have ih := dc2colanderAttrs_keys rest oidp mode excl fm tail ht
                  simp at hk
                  simp [FieldList.toList, List.filter_cons, hk, ih]

/-- Every entry of the built attribute dictionary comes from a field of the
record with the matching name, mapped by the per-field node builder. -/
theorem dc2colanderAttrs_mem :
    ∀ (fields : FieldList) (oidp mode : String) (excl : List String)
      (fm : List (String × Metadata)) (res : List (String × CNode)),
      dc2colanderAttrs fields oidp mode [] excl fm = .ok res →
      ∀ a n, (a, n) ∈ res →
        ∃ g, g ∈ fields.toList ∧ g.name = a ∧
          dataclass_field_to_colander_schemanode g oidp mode
            ((fm.lookup a).getD {}) = .ok n
  | .nil, _, _, _, _, res, h => by
      rw [dc2colanderAttrs] at h
      cases h
      intro a n hmem
      cases hmem
  | .cons f rest, oidp, mode, excl, fm, res, h => by
      rw [dc2colanderAttrs] at h
      simp only [List.isEmpty_nil, if_true] at h
      cases hk : excl.contains f.name with
      | true =>
          rw [hk] at h
          simp only [Bool.not_true, Bool.false_eq_true, if_false] at h
          intro a n hmem
          obtain ⟨g, hg, hgn, hgb⟩ :=
            dc2colanderAttrs_mem rest oidp mode excl fm res h a n hmem
          exact ⟨g, List.mem_cons_of_mem f hg, hgn, hgb⟩
      | false =>
          rw [hk] at h
          simp only [Bool.not_false, if_true] at h
          cases hn : dataclass_field_to_colander_schemanode f oidp mode
              ((fm.lookup f.name).getD {}) with
          | error e => rw [hn] at h; cases h
          | ok node =>
              rw [hn] at h
              cases ht : dc2colanderAttrs rest oidp mode [] excl fm with
              | error e => rw [ht] at h; cases h
              | ok tail =>
                  rw [ht] at h
                  cases h
                  intro a n hmem
                  cases hmem with
                  | head =>
                      exact ⟨f, List.mem_cons_self f rest.toList, rfl, hn⟩
                  | tail _ hmem2 =>
                      obtain ⟨g, hg, hgn, hgb⟩ :=
                        dc2colanderAttrs_mem rest oidp mode excl fm tail ht
                          a n hmem2
                      exact ⟨g, List.mem_cons_of_mem f hg, hgn, hgb⟩

/-- When the field's metadata carries no widget and no widget factory, the
per-field node builder produces a node without a widget. -/
theorem builder_widget_none (f : RField) (oidp mode : String)
    (h1 : f.metadata.deformWidget = none)
    (h2 : f.metadata.deformWidgetFactory = none) :
    ∀ n, dataclass_field_to_colander_schemanode f oidp mode {} = .ok n →
      n.widget = none := by
  intro n h
  rcases f with ⟨n0, t, d, df, m⟩
  simp only [RField.metadata] at h1 h2
  rw [dataclass_field_to_colander_schemanode.eq_def] at h
  simp only [dataclass_get_type, RField.metadata, Metadata.update_empty] at h
  cases hcf : m.colanderFieldFactory with
  | some ct =>
      rw [hcf] at h
      simp only [] at h
      cases h
      simp [SchemaNode.ofParams, colander_params, CNode.widget, RField.metadata,
        h1, h2]
  | none =>
      rw [hcf] at h
      cases t <;>
        simp only [] at h <;>
        first
          | (cases h
             simp [SchemaNode.ofParams, colander_params, CNode.widget,
               RField.metadata, h1, h2])
          | skip
      case tRecord rn fs =>
        cases hsub : dc2colanderAttrs fs "deformField" mode []
            (modeExcludeFields mode fs) [] with
        | error e => rw [hsub] at h; cases h
        | ok attrs0 =>
            rw [hsub] at h
            cases h
            rfl
      case tUnknown ty => cases h

/-- `List.contains` agrees with membership for strings. -/
theorem contains_true_of_mem {l : List String} {a : String} (h : a ∈ l) :
    l.contains a = true := by simpa using h

/-- A list that does not contain a string does not have it as a member. -/
theorem not_mem_of_contains_false {l : List String} {a : String}
    (h : l.contains a = false) : a ∉ l := by
  intro hmem
  rw [contains_true_of_mem hmem] at h
  cases h

/-- Inversion for `dc2colander` at default filter arguments: a successful
conversion is the post-processed field loop, with the mode-derived
readonly/exclude sets. -/
theorem dc2colander_ok_inv (fields : FieldList) (mode : String)
    (res : List (String × CNode)) (h : dc2colander fields mode = .ok res) :
    ∃ attrs0,
      dc2colanderAttrs fields "deformField" mode []
          (modeExcludeFields mode fields) [] = .ok attrs0 ∧
      res = dc2colanderPost fields.toList []
          (modeReadonlyFields mode fields) attrs0 := by
  simp only [dc2colander, List.nil_append] at h
  cases hm : dc2colanderAttrs fields "deformField" mode []
      (modeExcludeFields mode fields) [] with
  | error e => rw [hm] at h; simp [Bind.bind, Except.bind] at h
  | ok attrs0 =>
      rw [hm] at h
      simp only [Bind.bind, Except.bind] at h
      cases h
      exact ⟨attrs0, rfl, rfl⟩

/-- C3: for every record and every field marked non-editable (or readonly) by
metadata, `dc2colander` under `edit` mode keeps the field present with its
widget marked readonly; under `edit-process` mode it omits the field from the
output entirely; and under the default mode (for fields without preset
widgets) a field's widget is made readonly exactly when its metadata marks it
readonly. -/
theorem c3_mode_boundary (fields : FieldList) (f : RField)
    (hnd : (fields.toList.map RField.name).Nodup)
    (hf : f ∈ fields.toList)
    (hne : nonEditableField f = true) :
    (∀ res, dc2colander fields "edit" = .ok res →
        ∃ node, (f.name, node) ∈ res ∧ node.readonlyWidget = true) ∧
    (∀ res, dc2colander fields "edit-process" = .ok res →
        ∀ node, (f.name, node) ∉ res) ∧
    (∀ (g : RField) (res : List (String × CNode)) (node : CNode),
        g ∈ fields.toList →
        g.metadata.deformWidget = none →
        g.metadata.deformWidgetFactory = none →
        dc2colander fields "default" = .ok res →
        (g.name, node) ∈ res →
        (node.readonlyWidget = true ↔ g.metadata.readonly.getD false = true)) := by
  refine ⟨?_, ?_, ?_⟩
  · -- edit mode: field present with readonly widget
    intro res h
    obtain ⟨attrs0, hm, hres⟩ := dc2colander_ok_inv fields "edit" res h
    have hex : modeExcludeFields "edit" fields = [] := rfl
    rw [hex] at hm
    have hkeys := dc2colanderAttrs_keys fields "deformField" "edit" [] [] attrs0 hm
    have hfk : f.name ∈ attrs0.map Prod.fst := by
      rw [hkeys]
      exact List.mem_map.mpr ⟨f, List.mem_filter.mpr ⟨hf, by simp⟩, rfl⟩
    obtain ⟨kv, hkv, hfst⟩ := List.mem_map.mp hfk
    obtain ⟨a0, n0⟩ := kv
    simp only at hfst
    subst hfst
    have hro : (modeReadonlyFields "edit" fields).contains f.name = true := by
      apply contains_true_of_mem
      show f.name ∈ (fields.toList.filter _).map RField.name
      exact List.mem_map.mpr ⟨f, List.mem_filter.mpr ⟨hf, hne⟩, rfl⟩
    have hfindsome : (fields.toList.find? (fun g => g.name == f.name)).isSome :=
      List.find?_isSome.mpr ⟨f, hf, by simp⟩
    obtain ⟨dcp, hfind⟩ := Option.isSome_iff_exists.mp hfindsome
    refine ⟨(dc2colanderPostNode fields.toList []
        (modeReadonlyFields "edit" fields) (f.name, n0)).2, ?_, ?_⟩
    · rw [hres, dc2colanderPost]
      have hfst2 : (dc2colanderPostNode fields.toList []
          (modeReadonlyFields "edit" fields) (f.name, n0)).1 = f.name :=
        dc2colanderPostNode_fst fields.toList []
          (modeReadonlyFields "edit" fields) (f.name, n0)
      have hpair : dc2colanderPostNode fields.toList []
          (modeReadonlyFields "edit" fields) (f.name, n0)
          = (f.name, (dc2colanderPostNode fields.toList []
              (modeReadonlyFields "edit" fields) (f.name, n0)).2) :=
        Prod.ext hfst2 rfl
      rw [← hpair]
      exact List.mem_map_of_mem _ hkv
    · exact postNode_readonly_true fields.toList
        (modeReadonlyFields "edit" fields) f.name n0 dcp hfind hro
  · -- edit-process mode: field omitted
    intro res h node hmemres
    obtain ⟨attrs0, hm, hres⟩ := dc2colander_ok_inv fields "edit-process" res h
    have hkeys := dc2colanderAttrs_keys fields "deformField" "edit-process"
      (modeExcludeFields "edit-process" fields) [] attrs0 hm
    rw [hres] at hmemres
    rw [dc2colanderPost] at hmemres
    obtain ⟨kv, hkv, hkveq⟩ := List.mem_map.mp hmemres
    have hfst := dc2colanderPostNode_fst fields.toList []
      (modeReadonlyFields "edit-process" fields) kv
    rw [hkveq] at hfst
    have hfnk : f.name ∈ attrs0.map Prod.fst :=
      List.mem_map.mpr ⟨kv, hkv, hfst.symm⟩
    rw [hkeys] at hfnk
    obtain ⟨g, hgf, hgname⟩ := List.mem_map.mp hfnk
    have hgmem := (List.mem_filter.mp hgf).1
    have hgkeep := (List.mem_filter.mp hgf).2
    have hfex : f.name ∈ modeExcludeFields "edit-process" fields := by
      show f.name ∈ (fields.toList.filter _).map RField.name
      exact List.mem_map.mpr ⟨f, List.mem_filter.mpr ⟨hf, hne⟩, rfl⟩
    rw [hgname] at hgkeep
    simp only [Bool.not_eq_true'] at hgkeep
    exact not_mem_of_contains_false hgkeep hfex
  · -- default mode: readonly iff marked readonly
    intro g res node hg hw1 hw2 h hmemres
    obtain ⟨attrs0, hm, hres⟩ := dc2colander_ok_inv fields "default" res h
    rw [hres] at hmemres
    rw [dc2colanderPost] at hmemres
    obtain ⟨kv, hkv, hkveq⟩ := List.mem_map.mp hmemres
    have hfst := dc2colanderPostNode_fst fields.toList []
      (modeReadonlyFields "default" fields) kv
    rw [hkveq] at hfst
    obtain ⟨a0, n0⟩ := kv
    simp only at hfst
    subst hfst
    obtain ⟨g2, hg2mem, hg2name, hg2b⟩ := dc2colanderAttrs_mem fields
      "deformField" "default" _ [] attrs0 hm g.name n0 hkv
    have hg2eq : g2 = g :=
      List.inj_on_of_nodup_map hnd hg2mem hg hg2name
    subst hg2eq
    have hwnone : n0.widget = none :=
      builder_widget_none g2 "deformField" "default" hw1 hw2 n0 hg2b
    have hnode : node = (dc2colanderPostNode fields.toList []
        (modeReadonlyFields "default" fields) (g2.name, n0)).2 :=
      (congrArg Prod.snd hkveq).symm
    have hmodeRo : modeReadonlyFields "default" fields
        = (fields.toList.filter
            (fun x => x.metadata.readonly.getD false)).map RField.name := rfl
    constructor
    · intro hroT
      by_contra hnotmarked
      have hnm : g2.metadata.readonly.getD false = false := by
        cases hval : g2.metadata.readonly.getD false
        · rfl
        · exact absurd hval hnotmarked
      have hro : (modeReadonlyFields "default" fields).contains g2.name
          = false := by
        cases hc : (modeReadonlyFields "default" fields).contains g2.name
        · rfl
        · exfalso
          have hcm : g2.name ∈ modeReadonlyFields "default" fields := by
            simpa using hc
          rw [hmodeRo] at hcm
          obtain ⟨g3, hg3f, hg3name⟩ := List.mem_map.mp hcm
          have hg3mem := (List.mem_filter.mp hg3f).1
          have hg3ro := (List.mem_filter.mp hg3f).2
          have : g3 = g2 := List.inj_on_of_nodup_map hnd hg3mem hg hg3name
          subst this
          rw [hg3ro] at hnm
          cases hnm
      have := postNode_not_readonly fields.toList
        (modeReadonlyFields "default" fields) g2.name n0 hro hwnone
      rw [hnode] at hroT
      rw [this] at hroT
      cases hroT
    · intro hmarked
      have hro : (modeReadonlyFields "default" fields).contains g2.name
          = true := by
        apply contains_true_of_mem
        rw [hmodeRo]
        exact List.mem_map.mpr ⟨g2, List.mem_filter.mpr ⟨hg, hmarked⟩, rfl⟩
      have hfindsome : (fields.toList.find? (fun x => x.name == g2.name)).isSome :=
        List.find?_isSome.mpr ⟨g2, hg, by simp⟩
      obtain ⟨dcp, hfind⟩ := Option.isSome_iff_exists.mp hfindsome
      rw [hnode]
      exact postNode_readonly_true fields.toList
        (modeReadonlyFields "default" fields) g2.name n0 dcp hfind hro

/-- C3 witness: the theorem applied to the one-field record whose string field
`"a"` carries `editable = False` metadata.  Under `edit` the field is present
with a readonly widget; under `edit-process` the output is empty; under the
default mode the field is present and not readonly. -/
theorem c3_mode_boundary_witness :
    ((editFL.toList.map RField.name).Nodup ∧
      fldNonEditable ∈ editFL.toList ∧
      nonEditableField fldNonEditable = true ∧
      dc2colander editFL "edit" = .ok [("a", c3EditNode)] ∧
      dc2colander editFL "edit-process" = .ok [] ∧
      dc2colander editFL "default" = .ok [("a", c3DefaultNode)]) ∧
    ((∃ node, ("a", node) ∈ [("a", c3EditNode)] ∧
        node.readonlyWidget = true) ∧
      ("a", c3EditNode) ∉ ([] : List (String × CNode)) ∧
      (c3DefaultNode.readonlyWidget = true ↔
        fldNonEditable.metadata.readonly.getD false = true)) := by
  obtain ⟨hA, hB, hC⟩ := c3_mode_boundary editFL fldNonEditable (by decide)
    (List.mem_singleton.mpr rfl) rfl
  refine ⟨⟨by decide, List.mem_singleton.mpr rfl, rfl, rfl, rfl, rfl⟩,
    hA [("a", c3EditNode)] rfl, hB [] rfl c3EditNode,
    hC fldNonEditable [("a", c3DefaultNode)] c3DefaultNode
      (List.mem_singleton.mpr rfl) rfl rfl rfl (List.mem_singleton.mpr rfl)⟩
